import Mathlib

/-!
Shallow embedding of `asyncorm/fields/fields.py`: the field descriptor
system (keyword validation, value validation, sanitization to SQL
literals, and DDL fragment generation), together with a model of the
`json.dumps` / `json.loads` functions the `JsonField` variant delegates to.
Machine-level Python details that the embedding keeps: `bool` is a
subclass of `int` for `isinstance`, `and` short-circuits (so a missing
attribute is only touched when the left operand is truthy), string
formatting via `str()`, and identity tests (`is None`, `is True`).
-/

/-- Python exception kinds raised by the embedded code.  `fieldError`
models `asyncorm.exceptions.FieldError`; the others model built-in
Python exceptions that the code can raise on its own. -/
inductive PyErr where
  | fieldError (msg : String)
  | typeError (msg : String)
  | keyError (msg : String)
  | attributeError (msg : String)
  | jsonDecodeError
deriving DecidableEq, Repr

/-- Runtime type tags used in `isinstance` checks (`KWARGS_TYPES` and the
per-kind `internal_type`).  `float_` and `decimal_` appear in
`DecimalField.internal_type`; float-valued `PyVal`s are outside the
modelled value universe (floating point), so those tags match nothing. -/
inductive PyType where
  | int_
  | bool_
  | str_
  | dict_
  | list_
  | tuple_
  | datetime_
  | float_
  | decimal_
  | object_
deriving DecidableEq, Repr

/-- Python values the field layer manipulates.  `datetime` carries the
six components Python prints for a microsecond-free
`datetime.datetime`. -/
inductive PyVal where
  | none
  | bool (b : Bool)
  | int (n : Int)
  | str (s : String)
  | datetime (year month day hour minute second : Nat)
  | list (xs : List PyVal)
  | tuple (xs : List PyVal)
  | dict (kvs : List (PyVal × PyVal))

/-- `isinstance(v, t)` for a single type tag.  Mirrors Python:
`bool` is a subclass of `int`, everything is an `object`. -/
def isinst (v : PyVal) (t : PyType) : Bool :=
  match v, t with
  | _, .object_ => true
  | .bool _, .int_ => true
  | .bool _, .bool_ => true
  | .int _, .int_ => true
  | .str _, .str_ => true
  | .list _, .list_ => true
  | .tuple _, .tuple_ => true
  | .dict _, .dict_ => true
  | .datetime .., .datetime_ => true
  | _, _ => false

/-- `isinstance(v, ts)` against a tuple of types (any tag matches). -/
def isinstAny (v : PyVal) (ts : List PyType) : Bool :=
  ts.any (isinst v)

mutual
/-- Python `==` on the modelled values.  Booleans compare equal to the
integers 0/1 (numeric equality); distinct constructors are otherwise
unequal, and containers compare elementwise.  (Python's dict equality is
order-insensitive; the claims never compare dicts to dicts, order-exact
comparison is kept for those unreachable cases.) -/
def pyEq : PyVal → PyVal → Bool
  | .none, .none => true
  | .bool a, .bool b => a == b
  | .bool a, .int n => (if a then (1 : Int) else 0) == n
  | .int n, .bool a => n == (if a then (1 : Int) else 0)
  | .int a, .int b => a == b
  | .str a, .str b => a == b
  | .datetime a b c d e f, .datetime a' b' c' d' e' f' =>
      a == a' && b == b' && c == c' && d == d' && e == e' && f == f'
  | .list xs, .list ys => pyEqList xs ys
  | .tuple xs, .tuple ys => pyEqList xs ys
  | .dict xs, .dict ys => pyEqPairs xs ys
  | _, _ => false

def pyEqList : List PyVal → List PyVal → Bool
  | [], [] => true
  | x :: xs, y :: ys => pyEq x y && pyEqList xs ys
  | _, _ => false

def pyEqPairs : List (PyVal × PyVal) → List (PyVal × PyVal) → Bool
  | [], [] => true
  | (k, v) :: xs, (k', v') :: ys => pyEq k k' && pyEq v v' && pyEqPairs xs ys
  | _, _ => false
end

/-- Python truthiness (`bool(v)`): `None`/`False`/`0`/empty containers
and empty strings are falsy, `datetime` objects are truthy. -/
def pyTruthy : PyVal → Bool
  | .none => false
  | .bool b => b
  | .int n => n != 0
  | .str s => !s.isEmpty
  | .datetime .. => true
  | .list xs => !xs.isEmpty
  | .tuple xs => !xs.isEmpty
  | .dict kvs => !kvs.isEmpty

/-- Decimal digits of `n`, least significant first, with a structural
fuel bound (any `fuel > n` is ample). -/
def natDigitsRevAux : Nat → Nat → List Char
  | 0, _ => []
  | fuel + 1, n =>
      if n < 10 then [Char.ofNat (48 + n)]
      else Char.ofNat (48 + n % 10) :: natDigitsRevAux fuel (n / 10)

/-- Decimal digits of `n`, least significant first; `n = 0` gives `['0']`. -/
def natDigitsRev (n : Nat) : List Char :=
  natDigitsRevAux (n + 1) n

/-- Decimal representation of a natural number, as Python's `str`. -/
def natStr (n : Nat) : List Char :=
  (natDigitsRev n).reverse

/-- Decimal representation of an integer, as Python's `str`/`repr`. -/
def intStr (n : Int) : List Char :=
  if n < 0 then '-' :: natStr (-n).toNat else natStr n.toNat

/-- `intStr` as a `String`. -/
def intStrS (n : Int) : String :=
  String.mk (intStr n)

/-- Zero-padded decimal of width 2 (for datetime printing). -/
def pad2 (n : Nat) : String :=
  if n < 10 then String.mk ('0' :: natStr n) else String.mk (natStr n)

/-- Zero-padded decimal of width 4 (datetime years). -/
def pad4 (n : Nat) : String :=
  if n < 10 then String.mk ('0' :: '0' :: '0' :: natStr n)
  else if n < 100 then String.mk ('0' :: '0' :: natStr n)
  else if n < 1000 then String.mk ('0' :: natStr n)
  else String.mk (natStr n)

/-- The single-quote character, as a string. -/
def squote : String :=
  String.mk ['\x27']

mutual
/-- Python `str(v)` for the modelled values.  `str` of a string is the
string itself; `str(True) = "True"`; `str(None) = "None"`; a
microsecond-free datetime prints as `YYYY-MM-DD HH:MM:SS`.  Containers
print their elements with `repr` (string elements quoted). -/
def pyStr : PyVal → String
  | .str s => s
  | v => pyRepr v

/-- Python `repr(v)`.  For strings the model always uses single quotes
(Python switches to double quotes when the text contains a single quote
and no double quote; no claim prints such a container). -/
def pyRepr : PyVal → String
  | .none => "None"
  | .bool true => "True"
  | .bool false => "False"
  | .int n => intStrS n
  | .str s => squote ++ s ++ squote
  | .datetime y mo d h mi s =>
      pad4 y ++ "-" ++ pad2 mo ++ "-" ++ pad2 d ++ " " ++
        pad2 h ++ ":" ++ pad2 mi ++ ":" ++ pad2 s
  | .list xs => "[" ++ pyReprJoin xs ++ "]"
  | .tuple xs => "(" ++ pyReprJoin xs ++ ")"
  | .dict kvs => "\x7b" ++ pyReprJoinPairs kvs ++ "\x7d"

def pyReprJoin : List PyVal → String
  | [] => ""
  | [x] => pyRepr x
  | x :: xs => pyRepr x ++ ", " ++ pyReprJoin xs

def pyReprJoinPairs : List (PyVal × PyVal) → String
  | [] => ""
  | [(k, v)] => pyRepr k ++ ": " ++ pyRepr v
  | (k, v) :: kvs => pyRepr k ++ ": " ++ pyRepr v ++ ", " ++ pyReprJoinPairs kvs
end

/-- The field classes defined in `fields.py` (the abstract `Field` and
`NumberField` bases are not instantiable descriptors). -/
inductive FieldKind where
  | pkField
  | booleanField
  | charField
  | emailField
  | jsonField
  | integerField
  | decimalField
  | dateField
  | foreignKey
  | manyToMany
deriving DecidableEq, Repr

/-- `self.__class__.__name__` for each field kind. -/
def className : FieldKind → String
  | .pkField => "PkField"
  | .booleanField => "BooleanField"
  | .charField => "CharField"
  | .emailField => "EmailField"
  | .jsonField => "JsonField"
  | .integerField => "IntegerField"
  | .decimalField => "DecimalField"
  | .dateField => "DateField"
  | .foreignKey => "ForeignKey"
  | .manyToMany => "ManyToMany"

/-- The class-level `required_kwargs` list of each field kind
(`CharField`/`JsonField` require `max_length`, the relation kinds
require `foreign_key`; `EmailField` inherits `CharField`'s). -/
def requiredKwargs : FieldKind → List String
  | .charField => ["max_length"]
  | .emailField => ["max_length"]
  | .jsonField => ["max_length"]
  | .foreignKey => ["foreign_key"]
  | .manyToMany => ["foreign_key"]
  | _ => []

/-- The class-level `internal_type` of each field kind, as the tuple of
accepted runtime types.  `ManyToMany` is handled by its own `validate`
but shares the base check against `(list, int)`. -/
def internalType : FieldKind → List PyType
  | .pkField => [.int_]
  | .booleanField => [.bool_]
  | .charField => [.str_]
  | .emailField => [.str_]
  | .jsonField => [.dict_, .list_, .str_]
  | .integerField => [.int_]
  | .decimalField => [.decimal_, .float_, .int_]
  | .dateField => [.datetime_]
  | .foreignKey => [.int_]
  | .manyToMany => [.list_, .int_]

/-- The module-level `KWARGS_TYPES` table: expected runtime type(s) for
each accepted keyword argument.  A keyword outside the table makes the
lookup raise `KeyError`. -/
def kwargsTypes (k : String) : Option (List PyType) :=
  if k = "db_column" then some [.str_]
  else if k = "default" then some [.object_]
  else if k = "null" then some [.bool_]
  else if k = "max_length" then some [.int_]
  else if k = "foreign_key" then some [.str_]
  else if k = "auto_now" then some [.bool_]
  else if k = "reverse_field" then some [.str_]
  else if k = "choices" then some [.dict_, .tuple_]
  else if k = "unique" then some [.bool_]
  else if k = "strftime" then some [.str_]
  else if k = "max_digits" then some [.int_]
  else if k = "decimal_places" then some [.int_]
  else Option.none

/-- A `**kwargs` dictionary: keys with their values, in insertion order. -/
def Kwargs : Type := List (String × PyVal)

/-- `kwargs.get(k, d)`. -/
def kwargsGetD (kwargs : Kwargs) (k : String) (d : PyVal) : PyVal :=
  match List.lookup k kwargs with
  | some v => v
  | Option.none => d

/-- Substring test on character lists (Python's `in` for strings). -/
def hasSubstr (hay sub : List Char) : Bool :=
  sub.isPrefixOf hay ||
    match hay with
    | [] => false
    | _ :: t => hasSubstr t sub

/-- `Field.set_field_name`: rejects a `db_column` containing `__`,
starting with `_`, or ending with `_` (the success value is the column
name the method assigns to `self.db_column`). -/
def set_field_name (db_column : String) : Except PyErr String :=
  if hasSubstr db_column.data "__".data then
    .error (.fieldError ("db_column can not contain \"__\""))
  else if "_".data.isPrefixOf db_column.data then
    .error (.fieldError ("db_column can not start with \"_\""))
  else if "_".data.isSuffixOf db_column.data then
    .error (.fieldError ("db_column can not end with \"_\""))
  else .ok db_column

/-- The first loop of `Field.validate_kwargs`: every keyword of
`required_kwargs` must be present and truthy, otherwise
`FieldError('"<class>" field requires <kw>')`. -/
def requiredLoop (cname : String) (kwargs : Kwargs) : List String → Except PyErr Unit
  | [] => .ok ()
  | kw :: rest =>
      if pyTruthy (kwargsGetD kwargs kw .none) then requiredLoop cname kwargs rest
      else .error (.fieldError ("\"" ++ cname ++ "\" field requires " ++ kw))

/-- `v is None`. -/
def isNoneV : PyVal → Bool
  | .none => true
  | _ => false

/-- The second loop of `Field.validate_kwargs`: each supplied keyword's
value must match its `KWARGS_TYPES` entry, except `choices = None`. -/
def typeCheckLoop : Kwargs → Except PyErr Unit
  | [] => .ok ()
  | (k, v) :: rest =>
      match kwargsTypes k with
      | Option.none => .error (.keyError k)
      | some ts =>
          if !(isinstAny v ts) && !(isNoneV v && k == "choices") then
            .error (.fieldError ("Wrong value for " ++ k))
          else typeCheckLoop rest

/-- `Field.validate_kwargs`: required-keyword loop, then the type loop,
then — only when `kwargs.get('db_column', '')` is truthy —
`set_field_name`.  (A non-string `db_column` never reaches
`set_field_name`: the type loop rejects it first; the fallback branch
models the `TypeError` Python would raise on `'__' in non_str`.) -/
def validate_kwargs (kind : FieldKind) (kwargs : Kwargs) : Except PyErr Unit :=
  match requiredLoop (className kind) kwargs (requiredKwargs kind) with
  | .error e => .error e
  | .ok _ =>
      match typeCheckLoop kwargs with
      | .error e => .error e
      | .ok _ =>
          if pyTruthy (kwargsGetD kwargs "db_column" (.str "")) then
            match kwargsGetD kwargs "db_column" (.str "") with
            | .str s =>
                (match set_field_name s with
                 | .ok _ => .ok ()
                 | .error e => .error e)
            | _ => .error (.typeError "argument of type is not iterable")
          else .ok ()

/-- `Field.validate` for a descriptor possessing a `null` attribute and —
when `choicesAttr` is `some` — a non-`None` `choices` attribute (a missing
`choices` attribute and `choices = None` skip the membership check
identically).  Checks, in source order: nullability, choices membership
(Python `in`, i.e. `==` against the keys), then `isinstance` against
`internal_type`. -/
def Field.validate (nullAttr : Bool) (choicesAttr : Option (List (PyVal × PyVal)))
    (its : List PyType) (cname : String) (value : PyVal) : Except PyErr Unit :=
  if isNoneV value && !nullAttr then
    .error (.fieldError "null value in NOT NULL field")
  else if (match choicesAttr with
           | some cs => !(cs.any (fun kv => pyEq kv.1 value))
           | Option.none => false) then
    .error (.fieldError ("\"" ++ pyStr value ++ "\" not in model choices"))
  else if !(isinstAny value its) then
    .error (.fieldError (pyStr value ++ " is a wrong datatype for field " ++ cname))
  else .ok ()

/-- Word character for the e-mail pattern's `\w` (modelled over ASCII;
Python's `\w` additionally matches non-ASCII word characters, which no
claim exercises). -/
def isWordChar (c : Char) : Bool :=
  c.isAlphanum || c == '_'

/-- Character class `[\w0-9_.+-]` of the local part. -/
def emailLocalChar (c : Char) : Bool :=
  isWordChar c || c.isDigit || c == '.' || c == '+' || c == '-'

/-- Character class `[\w0-9-]` of the domain label before the dot. -/
def emailDomChar (c : Char) : Bool :=
  isWordChar c || c.isDigit || c == '-'

/-- Character class `[\w0-9-.]` of the trailing domain part. -/
def emailTailChar (c : Char) : Bool :=
  isWordChar c || c.isDigit || c == '-' || c == '.'

/-- `re.match` of `(^[\w][\w0-9_.+-]+@[\w0-9-]+\.[\w0-9-.]+$)` against
`s`.  Each `+` is a greedy scan; since none of the classes contains the
delimiter that follows it (`@`, `.`, end), greedy matching without
backtracking is exact for this pattern. -/
def emailMatch (s : List Char) : Bool :=
  match s with
  | [] => false
  | c0 :: rest =>
      isWordChar c0 &&
        (let t1 := rest.takeWhile emailLocalChar
         !t1.isEmpty &&
           match rest.drop t1.length with
           | '@' :: r2 =>
               let t2 := r2.takeWhile emailDomChar
               !t2.isEmpty &&
                 (match r2.drop t2.length with
                  | '.' :: r3 =>
                      let t3 := r3.takeWhile emailTailChar
                      !t3.isEmpty && (r3.drop t3.length).isEmpty
                  | _ => false)
           | _ => false)

/-- `EmailField.validate`: the inherited checks, then the e-mail
pattern.  (A non-string value never reaches the pattern: the base check
fails first.) -/
def EmailField.validate (nullAttr : Bool) (choicesAttr : Option (List (PyVal × PyVal)))
    (value : PyVal) : Except PyErr Unit :=
  match Field.validate nullAttr choicesAttr [.str_] "EmailField" value with
  | .error e => .error e
  | .ok _ =>
      match value with
      | .str s =>
          if emailMatch s.data then .ok ()
          else .error (.fieldError ("\"" ++ s ++ "\" not a valid email address"))
      | _ => .ok ()

/-- The base `Field.validate` as reached from a `ManyToMany` descriptor:
its constructor accepts neither `null` nor `choices`, so `value is None`
evaluates `not self.null` and raises `AttributeError`, any other value
short-circuits past it, and the choices check is skipped
(`hasattr(self, 'choices')` is false). -/
def ManyToMany.super_validate (value : PyVal) : Except PyErr Unit :=
  if isNoneV value then
    .error (.attributeError "ManyToMany object has no attribute null")
  else if !(isinstAny value [.list_, .int_]) then
    .error (.fieldError (pyStr value ++ " is a wrong datatype for field ManyToMany"))
  else .ok ()

/-- The element loop of `ManyToMany.validate`. -/
def ManyToMany.validateList : List PyVal → Except PyErr Unit
  | [] => .ok ()
  | x :: xs =>
      match ManyToMany.super_validate x with
      | .error e => .error e
      | .ok _ => ManyToMany.validateList xs

/-- `ManyToMany.validate`: base validation of every element when the
value is a `list`, base validation of the value itself otherwise. -/
def ManyToMany.validate (value : PyVal) : Except PyErr Unit :=
  match value with
  | .list xs => ManyToMany.validateList xs
  | v => ManyToMany.super_validate v

/-- `validate` as dispatched on each field kind.  The `nullAttr` and
`choicesAttr` arguments are the descriptor's attributes; kinds whose
constructor does not accept `choices` (`PkField`, `BooleanField`,
`ForeignKey`) never have the attribute, and `ManyToMany` has neither
`null` nor `choices`, so those arguments are ignored there. -/
def kindValidate (kind : FieldKind) (nullAttr : Bool)
    (choicesAttr : Option (List (PyVal × PyVal))) (value : PyVal) : Except PyErr Unit :=
  match kind with
  | .pkField => Field.validate nullAttr Option.none [.int_] "PkField" value
  | .booleanField => Field.validate nullAttr Option.none [.bool_] "BooleanField" value
  | .charField => Field.validate nullAttr choicesAttr [.str_] "CharField" value
  | .emailField => EmailField.validate nullAttr choicesAttr value
  | .jsonField => Field.validate nullAttr choicesAttr [.dict_, .list_, .str_] "JsonField" value
  | .integerField => Field.validate nullAttr choicesAttr [.int_] "IntegerField" value
  | .decimalField => Field.validate nullAttr choicesAttr [.decimal_, .float_, .int_] "DecimalField" value
  | .dateField => Field.validate nullAttr choicesAttr [.datetime_] "DateField" value
  | .foreignKey => Field.validate nullAttr Option.none [.int_] "ForeignKey" value
  | .manyToMany => ManyToMany.validate value

/-- `Field.sanitize_data`: `None` short-circuits to the *string*
`'NULL'` before any validation; every other value is validated and
returned unchanged. -/
def Field.sanitize_data (nullAttr : Bool) (choicesAttr : Option (List (PyVal × PyVal)))
    (its : List PyType) (cname : String) (value : PyVal) : Except PyErr PyVal :=
  if isNoneV value then .ok (.str "NULL")
  else
    match Field.validate nullAttr choicesAttr its cname value with
    | .error e => .error e
    | .ok _ => .ok value

/-- `CharField.sanitize_data`: the inherited conversion, then the
`max_length` bound, then single-quoting.  `max_length` is kept as a
Python `int` (an `Int`): only its type, not its sign, is checked at
declaration time.  The non-string branch models the `TypeError` of
`len()` on a value without a length; it is unreachable because the base
conversion only returns strings here. -/
def CharField.sanitize_data (nullAttr : Bool) (choicesAttr : Option (List (PyVal × PyVal)))
    (max_length : Int) (value : PyVal) : Except PyErr PyVal :=
  match Field.sanitize_data nullAttr choicesAttr [.str_] "CharField" value with
  | .error e => .error e
  | .ok (.str s) =>
      if (s.length : Int) > max_length then
        .error (.fieldError ("The string entered is bigger than the \"max_length\" defined ("
          ++ intStrS max_length ++ ")"))
      else .ok (.str (squote ++ s ++ squote))
  | .ok _ => .error (.typeError "object has no len()")

/-- `BooleanField.sanitize_data`: `None`/`True`/`False` map to the
tokens `NULL`/`true`/`false`; any other value falls through every branch
and the method returns Python's `None`. -/
def BooleanField.sanitize_data (value : PyVal) : Except PyErr PyVal :=
  match value with
  | .none => .ok (.str "NULL")
  | .bool true => .ok (.str "true")
  | .bool false => .ok (.str "false")
  | _ => .ok .none

/-- `DateField.sanitize_data`: the inherited conversion, then
single-quoted `str()` formatting. -/
def DateField.sanitize_data (nullAttr : Bool) (choicesAttr : Option (List (PyVal × PyVal)))
    (value : PyVal) : Except PyErr PyVal :=
  match Field.sanitize_data nullAttr choicesAttr [.datetime_] "DateField" value with
  | .error e => .error e
  | .ok v => .ok (.str (squote ++ pyStr v ++ squote))

/-- JSON values as produced by `json.loads` and consumed by
`json.dumps`.  Numbers are modelled as Python `int`s; JSON fractions and
exponents (Python floats) are outside the modelled universe. -/
inductive JsonVal where
  | jnull
  | jbool (b : Bool)
  | jint (n : Int)
  | jstr (s : String)
  | jarr (xs : List JsonVal)
  | jobj (kvs : List (String × JsonVal))

/-- Lowercase hex digit for `0 ≤ n < 16`. -/
def hexDigitCh (n : Nat) : Char :=
  Char.ofNat (if n < 10 then 48 + n else 87 + n)

/-- Four lowercase hex digits of `n % 0x10000` (the `\uXXXX` payload). -/
def hex4 (n : Nat) : List Char :=
  [hexDigitCh (n / 4096 % 16), hexDigitCh (n / 256 % 16),
   hexDigitCh (n / 16 % 16), hexDigitCh (n % 16)]

/-- One character of `json.dumps`'s default (`ensure_ascii=True`) string
escaping: `\"` and `\\`, the short control escapes, `\u00xx` for other
control characters, printable ASCII verbatim, `\uxxxx` for other BMP
characters and a surrogate pair for characters above the BMP. -/
def escapeChar (c : Char) : List Char :=
  if c == '"' then ['\\', '"']
  else if c == '\\' then ['\\', '\\']
  else if c == '\x08' then ['\\', 'b']
  else if c == '\x0c' then ['\\', 'f']
  else if c == '\n' then ['\\', 'n']
  else if c == '\r' then ['\\', 'r']
  else if c == '\t' then ['\\', 't']
  else if c.toNat < 0x20 then '\\' :: 'u' :: hex4 c.toNat
  else if c.toNat ≤ 0x7e then [c]
  else if c.toNat < 0x10000 then '\\' :: 'u' :: hex4 c.toNat
  else
    '\\' :: 'u' :: hex4 (0xd800 + (c.toNat - 0x10000) / 0x400) ++
      '\\' :: 'u' :: hex4 (0xdc00 + (c.toNat - 0x10000) % 0x400)

/-- String-body escaping: each character in turn. -/
def escapeStr : List Char → List Char
  | [] => []
  | c :: cs => escapeChar c ++ escapeStr cs

mutual
/-- `json.dumps` with its default separators `', '` and `': '`, as a
character list. -/
def dumpsJ : JsonVal → List Char
  | .jnull => ['n', 'u', 'l', 'l']
  | .jbool true => ['t', 'r', 'u', 'e']
  | .jbool false => ['f', 'a', 'l', 's', 'e']
  | .jint n => intStr n
  | .jstr s => '"' :: escapeStr s.data ++ ['"']
  | .jarr xs => '[' :: dumpsArr xs ++ [']']
  | .jobj kvs => '\x7b' :: dumpsObj kvs ++ ['\x7d']

/-- Array items joined by `', '`. -/
def dumpsArr : List JsonVal → List Char
  | [] => []
  | [x] => dumpsJ x
  | x :: xs => dumpsJ x ++ ',' :: ' ' :: dumpsArr xs

/-- Object members (`"key": value`) joined by `', '`. -/
def dumpsObj : List (String × JsonVal) → List Char
  | [] => []
  | [(k, v)] => '"' :: escapeStr k.data ++ '"' :: ':' :: ' ' :: dumpsJ v
  | (k, v) :: kvs =>
      '"' :: escapeStr k.data ++ '"' :: ':' :: ' ' :: dumpsJ v ++
        ',' :: ' ' :: dumpsObj kvs
end

/-- `json.dumps` as a `String`. -/
def jsonDumps (v : JsonVal) : String :=
  String.mk (dumpsJ v)

/-- JSON whitespace. -/
def isWsCh (c : Char) : Bool :=
  c == ' ' || c == '\t' || c == '\n' || c == '\r'

/-- Drop leading JSON whitespace. -/
def skipWs : List Char → List Char
  | [] => []
  | c :: cs => if isWsCh c then skipWs cs else c :: cs

/-- Value of one hex digit (either case), as in the scanner's
`int(s, 16)`. -/
def hexVal (c : Char) : Option Nat :=
  if 48 ≤ c.toNat ∧ c.toNat ≤ 57 then some (c.toNat - 48)
  else if 97 ≤ c.toNat ∧ c.toNat ≤ 102 then some (c.toNat - 87)
  else if 65 ≤ c.toNat ∧ c.toNat ≤ 70 then some (c.toNat - 55)
  else Option.none

/-- Value of a `\uXXXX` payload. -/
def hex4Val (a b c d : Char) : Option Nat :=
  match hexVal a, hexVal b, hexVal c, hexVal d with
  | some x, some y, some z, some w => some (4096 * x + 256 * y + 16 * z + w)
  | _, _, _, _ => Option.none

mutual
/-- String-body scanning after the opening quote: plain characters up to
the closing quote, backslash escapes via `parseEsc`, control characters
rejected (strict mode). -/
def parseStrAux : List Char → Option (List Char × List Char)
  | [] => Option.none
  | c :: rest =>
      if c == '"' then some ([], rest)
      else if c == '\\' then parseEsc rest
      else if c.toNat < 0x20 then Option.none
      else (parseStrAux rest).map (fun p => (c :: p.1, p.2))

/-- The character(s) after a backslash: the named escapes or `\uXXXX`
(via `parseU`). -/
def parseEsc : List Char → Option (List Char × List Char)
  | [] => Option.none
  | e :: rest2 =>
      if e == '"' then (parseStrAux rest2).map (fun p => ('"' :: p.1, p.2))
      else if e == '\\' then (parseStrAux rest2).map (fun p => ('\\' :: p.1, p.2))
      else if e == '/' then (parseStrAux rest2).map (fun p => ('/' :: p.1, p.2))
      else if e == 'b' then (parseStrAux rest2).map (fun p => ('\x08' :: p.1, p.2))
      else if e == 'f' then (parseStrAux rest2).map (fun p => ('\x0c' :: p.1, p.2))
      else if e == 'n' then (parseStrAux rest2).map (fun p => ('\n' :: p.1, p.2))
      else if e == 'r' then (parseStrAux rest2).map (fun p => ('\r' :: p.1, p.2))
      else if e == 't' then (parseStrAux rest2).map (fun p => ('\t' :: p.1, p.2))
      else if e == 'u' then parseU rest2
      else Option.none

/-- A `\uXXXX` payload: a lone BMP scalar directly, a high surrogate
followed (via `parseLowSur`) by a low surrogate as a supplementary
character.  Python tolerates a lone surrogate escape; a Lean `Char`
cannot hold one, so the model rejects it — `dumpsJ` output never
contains one. -/
def parseU : List Char → Option (List Char × List Char)
  | a :: b :: c2 :: d :: more =>
      (match hex4Val a b c2 d with
       | Option.none => Option.none
       | some n =>
           if n < 0xd800 ∨ 0xdfff < n then
             (parseStrAux more).map (fun p => (Char.ofNat n :: p.1, p.2))
           else if n < 0xdc00 then parseLowSur n more
           else Option.none)
  | _ => Option.none

/-- The low-surrogate escape completing a high surrogate `n`. -/
def parseLowSur (n : Nat) : List Char → Option (List Char × List Char)
  | e2 :: u2 :: a2 :: b2 :: c3 :: d2 :: more2 =>
      if e2 == '\\' && u2 == 'u' then
        match hex4Val a2 b2 c3 d2 with
        | some m =>
            if 0xdc00 ≤ m ∧ m < 0xe000 then
              (parseStrAux more2).map (fun p =>
                (Char.ofNat (0x10000 + (n - 0xd800) * 0x400 + (m - 0xdc00)) :: p.1, p.2))
            else Option.none
        | Option.none => Option.none
      else Option.none
  | _ => Option.none
end

/-- ASCII decimal digit. -/
def isDigitCh (c : Char) : Bool :=
  48 ≤ c.toNat && c.toNat ≤ 57

/-- Numeric value of a digit run. -/
def digitsVal (ds : List Char) : Nat :=
  ds.foldl (fun a c => a * 10 + (c.toNat - 48)) 0

/-- Unsigned integer part of JSON's number grammar `(0|[1-9]\d*)`:
a leading `0` matches alone, otherwise a maximal digit run. -/
def parseUNum : List Char → Option (Nat × List Char)
  | [] => Option.none
  | c :: rest =>
      if c == '0' then some (0, rest)
      else
        let ds := (c :: rest).takeWhile isDigitCh
        if ds.isEmpty then Option.none
        else some (digitsVal ds, (c :: rest).drop ds.length)

/-- Completion of number parsing: reject a fraction/exponent suffix
(floats are outside the model, Python would build one), apply the sign,
embed as a JSON value. -/
def numFinish (neg : Bool) : Option (Nat × List Char) → Option (JsonVal × List Char)
  | some (n, r) =>
      (match r with
       | c :: _ =>
           if c == '.' || c == 'e' || c == 'E' then Option.none
           else some (.jint (if neg then -(n : Int) else (n : Int)), r)
       | [] => some (.jint (if neg then -(n : Int) else (n : Int)), []))
  | Option.none => Option.none

/-- JSON number parsing, restricted to the modelled integers: an
optional sign and an integer part; the `NaN`/`Infinity` extensions are
outside the model and rejected. -/
def parseNum (input : List Char) : Option (JsonVal × List Char) :=
  match input with
  | [] => Option.none
  | c0 :: rest0 =>
      if c0 == '-' then numFinish true (parseUNum rest0)
      else numFinish false (parseUNum (c0 :: rest0))

mutual
/-- Recursive-descent JSON value parser (the scanner behind
`json.loads`), with a fuel bound on nesting depth; it returns the parsed
value and the unconsumed remainder. -/
def parseVal : Nat → List Char → Option (JsonVal × List Char)
  | 0, _ => Option.none
  | fuel + 1, input =>
      match skipWs input with
      | [] => Option.none
      | c :: rest =>
          if c == '"' then (parseStrAux rest).map (fun p => (.jstr (String.mk p.1), p.2))
          else if c == '[' then
            (match skipWs rest with
             | d :: r2 =>
                 if d == ']' then some (.jarr [], r2)
                 else (parseElems fuel rest).map (fun p => (.jarr p.1, p.2))
             | [] => (parseElems fuel rest).map (fun p => (.jarr p.1, p.2)))
          else if c == '\x7b' then
            (match skipWs rest with
             | d :: r2 =>
                 if d == '\x7d' then some (.jobj [], r2)
                 else (parseMembers fuel rest).map (fun p => (.jobj p.1, p.2))
             | [] => (parseMembers fuel rest).map (fun p => (.jobj p.1, p.2)))
          else if c == 'n' then
            (match rest with
             | 'u' :: 'l' :: 'l' :: r => some (.jnull, r)
             | _ => Option.none)
          else if c == 't' then
            (match rest with
             | 'r' :: 'u' :: 'e' :: r => some (.jbool true, r)
             | _ => Option.none)
          else if c == 'f' then
            (match rest with
             | 'a' :: 'l' :: 's' :: 'e' :: r => some (.jbool false, r)
             | _ => Option.none)
          else parseNum (c :: rest)

/-- One-or-more array elements separated by `,`, ending at `]`. -/
def parseElems : Nat → List Char → Option (List JsonVal × List Char)
  | 0, _ => Option.none
  | fuel + 1, input =>
      match parseVal fuel input with
      | Option.none => Option.none
      | some (v, r) =>
          match skipWs r with
          | ',' :: r2 =>
              (match parseElems fuel r2 with
               | some (vs, r3) => some (v :: vs, r3)
               | Option.none => Option.none)
          | ']' :: r2 => some ([v], r2)
          | _ => Option.none

/-- One-or-more object members (`"key": value`) separated by `,`,
ending at the closing brace. -/
def parseMembers : Nat → List Char → Option (List (String × JsonVal) × List Char)
  | 0, _ => Option.none
  | fuel + 1, input =>
      match skipWs input with
      | '"' :: r0 =>
          (match parseStrAux r0 with
           | Option.none => Option.none
           | some (k, r1) =>
               match skipWs r1 with
               | ':' :: r2 =>
                   (match parseVal fuel r2 with
                    | Option.none => Option.none
                    | some (v, r3) =>
                        match skipWs r3 with
                        | ',' :: r4 =>
                            (match parseMembers fuel r4 with
                             | some (kvs, r5) => some ((String.mk k, v) :: kvs, r5)
                             | Option.none => Option.none)
                        | '\x7d' :: r4 => some ([(String.mk k, v)], r4)
                        | _ => Option.none)
               | _ => Option.none)
      | _ => Option.none
end

/-- `json.loads`: parse one value (with fuel ample for any nesting the
input length allows) and require only whitespace after it; any failure
is a `JSONDecodeError`. -/
def json_loads (s : String) : Except PyErr JsonVal :=
  match parseVal (s.data.length + 1) s.data with
  | some (v, rest) =>
      if (skipWs rest).isEmpty then .ok v else .error .jsonDecodeError
  | Option.none => .error .jsonDecodeError

/-- `JsonField.recompose`: `json.loads` on the stored text. -/
def JsonField.recompose (s : String) : Except PyErr JsonVal :=
  json_loads s

/-- Coercion `json.dumps` applies to a dict key: strings pass through,
integers/booleans/`None` become their JSON spellings, anything else is a
`TypeError`. -/
def jsonKey : PyVal → Except PyErr String
  | .str s => .ok s
  | .bool true => .ok "true"
  | .bool false => .ok "false"
  | .int n => .ok (intStrS n)
  | .none => .ok "null"
  | _ => .error (.typeError "keys must be str, int, float, bool or None, not datetime")

mutual
/-- The structural conversion `json.dumps` performs on a Python value:
tuples serialize like lists, dict keys are coerced by `jsonKey`, and a
`datetime` raises `TypeError` (not JSON serializable). -/
def pyToJson : PyVal → Except PyErr JsonVal
  | .none => .ok .jnull
  | .bool b => .ok (.jbool b)
  | .int n => .ok (.jint n)
  | .str s => .ok (.jstr s)
  | .list xs => do
      let js ← pyToJsonList xs
      pure (.jarr js)
  | .tuple xs => do
      let js ← pyToJsonList xs
      pure (.jarr js)
  | .dict kvs => do
      let js ← pyToJsonPairs kvs
      pure (.jobj js)
  | .datetime .. => .error (.typeError "Object of type datetime is not JSON serializable")

def pyToJsonList : List PyVal → Except PyErr (List JsonVal)
  | [] => .ok []
  | x :: xs => do
      let j ← pyToJson x
      let js ← pyToJsonList xs
      pure (j :: js)

def pyToJsonPairs : List (PyVal × PyVal) → Except PyErr (List (String × JsonVal))
  | [] => .ok []
  | (k, v) :: kvs => do
      let ks ← jsonKey k
      let j ← pyToJson v
      let js ← pyToJsonPairs kvs
      pure ((ks, j) :: js)
end

/-- The middle step of `JsonField.sanitize_data` (the body of its
`if value != 'NULL'` block): textual input is parsed
(`JSONDecodeError` becomes a `FieldError`) and the value re-encoded
canonically with `json.dumps`; the string `'NULL'` is left as the
4-character text `NULL`. -/
def JsonField.reencode (value : PyVal) : Except PyErr String :=
  if pyEq value (.str "NULL") then .ok "NULL"
  else
    match value with
    | .str s =>
        (match json_loads s with
         | .ok j => .ok (String.mk (dumpsJ j))
         | .error _ =>
             .error (.fieldError "The data entered can not be converted to json"))
    | v =>
        match pyToJson v with
        | .ok j => .ok (String.mk (dumpsJ j))
        | .error e => .error e

/-- `JsonField.sanitize_data`: validate, then — unless the value equals
the string `'NULL'` — parse textual input (`JSONDecodeError` becomes a
`FieldError`) and re-encode canonically with `json.dumps`
(`JsonField.reencode`); finally the `max_length` bound on the resulting
text and single-quoting. -/
def JsonField.sanitize_data (nullAttr : Bool) (choicesAttr : Option (List (PyVal × PyVal)))
    (max_length : Int) (value : PyVal) : Except PyErr PyVal :=
  match Field.validate nullAttr choicesAttr [.dict_, .list_, .str_] "JsonField" value with
  | .error e => .error e
  | .ok _ =>
      match JsonField.reencode value with
      | .error e => .error e
      | .ok text =>
          if (text.length : Int) > max_length then
            .error (.fieldError ("The string entered is bigger than the \"max_length\" defined ("
              ++ intStrS max_length ++ ")"))
          else .ok (.str (squote ++ text ++ squote))

/-- The canonical re-encoded text of a value accepted by
`JsonField.sanitize_data`: for a string, the canonical re-encoding of
what it parses to; otherwise the canonical encoding of the structural
value.  `none` when no canonical encoding exists (unparsable text, or a
structure `json.dumps` rejects). -/
def jsonCanonicalText (value : PyVal) : Option String :=
  match value with
  | .str s =>
      (match json_loads s with
       | .ok j => some (String.mk (dumpsJ j))
       | .error _ => Option.none)
  | v =>
      match pyToJson v with
      | .ok j => some (String.mk (dumpsJ j))
      | .error _ => Option.none

/-- A descriptor's `default` attribute: a plain value or a nullary
producer (`callable(self.default)`). -/
inductive DefaultVal where
  | val (v : PyVal)
  | producer (f : Unit → PyVal)

/-- The default value actually used: a callable default is invoked. -/
def resolveDefault : DefaultVal → PyVal
  | .val v => v
  | .producer f => f ()

/-- The attributes `Field.creation_query` reads from `self`.
`defaultAttr = none` covers both a missing `default` attribute and
`default = None` (the code guards with `hasattr` and `is not None`
together); `auto_now` is only ever read for the date kind. -/
structure FieldState where
  db_column : String
  nullAttr : Bool
  unique : Bool
  defaultAttr : Option DefaultVal
  auto_now : Bool
  choicesAttr : Option (List (PyVal × PyVal))

/-- `Field.creation_query`: column name and type syntax, the
`NULL`/`NOT NULL` suffix, then a `DEFAULT` clause — a string default is
quoted as-is, a boolean default is written with `str()` (capitalised
`True`/`False`), anything else is passed through the kind's
`sanitize_data` and quoted — or, with no default on a date field with
`auto_now`, the literal `DEFAULT now()`; finally `UNIQUE`.  The
substitution of `{db_column}` into the template is modelled directly
(the code's final `.format(**self.__dict__)` re-scan only differs when a
piece contains stray braces). -/
def Field.creation_query (typeSyntax : String) (isDateField : Bool)
    (sanitize : PyVal → Except PyErr PyVal) (st : FieldState) : Except PyErr String := do
  let s0 := st.db_column ++ " " ++ typeSyntax ++ (if st.nullAttr then " NULL" else " NOT NULL")
  let s1 ←
    match st.defaultAttr with
    | some d =>
        (match resolveDefault d with
         | .str strv => pure (s0 ++ " DEFAULT " ++ squote ++ strv ++ squote)
         | .bool b => pure (s0 ++ " DEFAULT " ++ pyStr (.bool b))
         | dv => do
             let x ← sanitize dv
             pure (s0 ++ " DEFAULT " ++ squote ++ pyStr x ++ squote))
    | Option.none =>
        pure (if isDateField && st.auto_now then s0 ++ " DEFAULT now()" else s0)
  pure (s1 ++ (if st.unique then " UNIQUE" else ""))

/-- `BooleanField`'s DDL fragment: type syntax `boolean`, not a date
field, defaults rendered through `BooleanField.sanitize_data`. -/
def BooleanField.creation_query (st : FieldState) : Except PyErr String :=
  Field.creation_query "boolean" false (fun v => BooleanField.sanitize_data v) st

/-- `DateField`'s DDL fragment: type syntax `timestamp`, the only member
of `DATE_FIELDS`, defaults rendered through `DateField.sanitize_data`. -/
def DateField.creation_query (st : FieldState) : Except PyErr String :=
  Field.creation_query "timestamp" true
    (DateField.sanitize_data st.nullAttr st.choicesAttr) st

/-- `s.endswith(suffix)`, for fragment-shape statements. -/
def strEndsWith (s suffix : String) : Bool :=
  suffix.data.isSuffixOf s.data

/-- Substring containment (Python's `sub in s`), for fragment-shape
statements. -/
def strContains (s sub : String) : Bool :=
  hasSubstr s.data sub.data

theorem strEndsWith_append (a b : String) : strEndsWith (a ++ b) b = true := by
  simp only [strEndsWith, String.data_append, List.isSuffixOf_iff_suffix]
  exact List.suffix_append _ _

theorem strEndsWith_trans (a b c : String) (h : strEndsWith b c = true) :
    strEndsWith (a ++ b) c = true := by
  simp only [strEndsWith, String.data_append, List.isSuffixOf_iff_suffix] at h ⊢
  exact h.trans (List.suffix_append _ _)

theorem hasSubstr_append_middle (a sub b : List Char) :
    hasSubstr (a ++ sub ++ b) sub = true := by
  induction a with
  | nil =>
      have hp : sub.isPrefixOf (sub ++ b) = true := by
        rw [List.isPrefixOf_iff_prefix]
        exact List.prefix_append _ _
      rw [List.nil_append, hasSubstr.eq_def, hp, Bool.true_or]
  | cons c a ih =>
      simp only [List.cons_append]
      rw [hasSubstr.eq_def]
      simp only [Bool.or_eq_true]
      right
      exact ih

theorem hasSubstr_of_infix (hay sub : List Char) (h : sub <:+: hay) :
    hasSubstr hay sub = true := by
  rcases h with ⟨s, t, rfl⟩
  exact hasSubstr_append_middle s sub t

theorem infix_of_hasSubstr (hay sub : List Char) (h : hasSubstr hay sub = true) :
    sub <:+: hay := by
  induction hay with
  | nil =>
      cases sub with
      | nil => exact List.nil_infix
      | cons sc scs =>
          rw [hasSubstr] at h
          simp [List.isPrefixOf] at h
  | cons c t ih =>
      rw [hasSubstr] at h
      simp only [Bool.or_eq_true] at h
      rcases h with h | h
      · rw [List.isPrefixOf_iff_prefix] at h
        exact h.isInfix
      · exact (ih h).trans (List.infix_cons List.infix_rfl)

theorem strContains_append_right (a b sub : String) (h : strContains a sub = true) :
    strContains (a ++ b) sub = true := by
  simp only [strContains, String.data_append] at h ⊢
  exact hasSubstr_of_infix _ _
    ((infix_of_hasSubstr _ _ h).trans (List.prefix_append _ _).isInfix)

theorem strContains_append_left (a b sub : String) (h : strContains b sub = true) :
    strContains (a ++ b) sub = true := by
  simp only [strContains, String.data_append] at h ⊢
  exact hasSubstr_of_infix _ _
    ((infix_of_hasSubstr _ _ h).trans (List.suffix_append _ _).isInfix)

/-- Claim C10: for a boolean descriptor, any input other than exactly
`None`, `True` or `False` falls through every branch of `sanitize_data`:
no error is raised, no SQL literal is produced, and the method returns
Python's `None`. -/
theorem c10_boolean_sanitize_fallthrough (v : PyVal)
    (h1 : v ≠ PyVal.none) (h2 : v ≠ PyVal.bool true) (h3 : v ≠ PyVal.bool false) :
    BooleanField.sanitize_data v = Except.ok PyVal.none := by
  cases v with
  | none => exact absurd rfl h1
  | bool b =>
      cases b with
      | true => exact absurd rfl h2
      | false => exact absurd rfl h3
  | int n => rfl
  | str s => rfl
  | datetime y mo d h mi s => rfl
  | list xs => rfl
  | tuple xs => rfl
  | dict kvs => rfl

/-- Witness for C10: `sanitize_data(1)` returns Python `None` without
raising. -/
theorem c10_witness :
    BooleanField.sanitize_data (PyVal.int 1) = Except.ok PyVal.none :=
  c10_boolean_sanitize_fallthrough (PyVal.int 1)
    (by intro h; exact PyVal.noConfusion h)
    (by intro h; exact PyVal.noConfusion h)
    (by intro h; exact PyVal.noConfusion h)

/-- Counterexample to claim C2: for the character descriptor
`db_column="name", max_length=5, null=False`, `sanitize_data(None)` does
not fail with a nullability error — the base class short-circuits `None`
to the text `NULL` before any check, and `CharField` quotes it, so the
call returns the quoted string literal `'NULL'`. -/
theorem c2_counterexample :
    CharField.sanitize_data false Option.none 5 PyVal.none =
      Except.ok (PyVal.str (squote ++ "NULL" ++ squote)) := by
  rfl

/-- Claim C2 (amended): for a character descriptor with
`db_column="name", max_length=5, null=False`: `sanitize("hello")`
returns the single-quoted literal `'hello'`; `sanitize("helloo")` fails
with the length-violation `FieldError`; but `sanitize(None)` does not
fail — it returns the quoted literal `'NULL'`, because the base
`sanitize_data` maps `None` to the text `NULL` before any nullability
check and `CharField` then treats it as an ordinary 4-character
string. -/
theorem c2_char_scenario_amended :
    CharField.sanitize_data false Option.none 5 (PyVal.str "hello") =
        Except.ok (PyVal.str (squote ++ "hello" ++ squote)) ∧
    CharField.sanitize_data false Option.none 5 (PyVal.str "helloo") =
        Except.error (PyErr.fieldError
          ("The string entered is bigger than the \"max_length\" defined (5)")) ∧
    CharField.sanitize_data false Option.none 5 PyVal.none =
        Except.ok (PyVal.str (squote ++ "NULL" ++ squote)) :=
  ⟨rfl, rfl, rfl⟩

theorem strEndsWith_default_true (p : String) :
    strEndsWith ((p ++ " DEFAULT " ++ pyStr (PyVal.bool true)) ++ "") "DEFAULT True" = true := by
  rw [String.append_empty, String.append_assoc]
  exact strEndsWith_trans _ _ _ rfl

/-- Counterexample to claim C3: a boolean descriptor with
`default=True` renders its default through `str(True)`, so the fragment
ends in capitalised `DEFAULT True`, not in the claimed lowercase
`DEFAULT true`. -/
theorem c3_counterexample :
    BooleanField.creation_query
        { db_column := "", nullAttr := false, unique := false,
          defaultAttr := some (.val (.bool true)), auto_now := false,
          choicesAttr := Option.none } =
      Except.ok " boolean NOT NULL DEFAULT True" ∧
    strEndsWith " boolean NOT NULL DEFAULT True" "DEFAULT true" = false :=
  ⟨rfl, rfl⟩

/-- Claim C3 (amended): for every boolean descriptor with
`default=True` (and `unique` unset), `creation_query` succeeds and the
fragment ends in the unquoted literal `DEFAULT True` — the default is
rendered with Python's `str()`, hence capitalised, not the lowercase
`true` that `BooleanField.sanitize_data` would produce. -/
theorem c3_boolean_default_renders_str_true (db_column : String)
    (nullAttr auto_now : Bool) (choicesAttr : Option (List (PyVal × PyVal))) :
    ∃ s, BooleanField.creation_query
        { db_column := db_column, nullAttr := nullAttr, unique := false,
          defaultAttr := some (.val (.bool true)), auto_now := auto_now,
          choicesAttr := choicesAttr } = Except.ok s ∧
      strEndsWith s "DEFAULT True" = true := by
  refine ⟨_, rfl, strEndsWith_default_true _⟩

/-- Witness for C3 (amended): a concrete boolean descriptor. -/
theorem c3_witness :
    ∃ s, BooleanField.creation_query
        { db_column := "flag", nullAttr := false, unique := false,
          defaultAttr := some (.val (.bool true)), auto_now := false,
          choicesAttr := Option.none } = Except.ok s ∧
      strEndsWith s "DEFAULT True" = true :=
  c3_boolean_default_renders_str_true "flag" false false Option.none

theorem requiredLoop_ok_all (cname : String) (kwargs : Kwargs) (l : List String)
    (h : requiredLoop cname kwargs l = Except.ok ()) :
    ∀ kw ∈ l, pyTruthy (kwargsGetD kwargs kw .none) = true := by
  induction l with
  | nil => intro kw hkw; simp at hkw
  | cons k rest ih =>
      intro kw hkw
      rw [requiredLoop] at h
      by_cases hk : pyTruthy (kwargsGetD kwargs k .none) = true
      · rw [if_pos hk] at h
        rcases List.mem_cons.mp hkw with rfl | hkw'
        · exact hk
        · exact ih h kw hkw'
      · rw [if_neg hk] at h
        exact absurd h (by intro hcontra; exact Except.noConfusion hcontra)


theorem validate_kwargs_required_fail (kind : FieldKind) (kwargs : Kwargs) (kw : String)
    (hreq : requiredKwargs kind = [kw])
    (h : pyTruthy (kwargsGetD kwargs kw .none) = false) :
    validate_kwargs kind kwargs =
      Except.error (.fieldError ("\"" ++ className kind ++ "\" field requires " ++ kw)) := by
  rw [validate_kwargs, hreq, requiredLoop, if_neg (by simp [h])]

/-- Claim C6: for every field kind, a required keyword that is absent or
falsy makes construction fail with a `FieldError` naming the keyword and
the field kind (each kind requires at most one keyword, so the failing
keyword is the named one); and `validate_kwargs` only returns normally
when every required keyword is supplied and truthy. -/
theorem c6_required_kwargs_declaration :
    (∀ (kind : FieldKind) (kwargs : Kwargs) (kw : String),
        kw ∈ requiredKwargs kind →
        pyTruthy (kwargsGetD kwargs kw .none) = false →
        validate_kwargs kind kwargs =
          Except.error (.fieldError ("\"" ++ className kind ++ "\" field requires " ++ kw))) ∧
    (∀ (kind : FieldKind) (kwargs : Kwargs),
        validate_kwargs kind kwargs = Except.ok () →
        ∀ kw ∈ requiredKwargs kind, pyTruthy (kwargsGetD kwargs kw .none) = true) := by
  constructor
  · intro kind kwargs kw hmem h
    cases kind <;> simp only [requiredKwargs, List.mem_singleton, List.not_mem_nil] at hmem
    all_goals first
      | exact absurd hmem (by simp)
      | (subst hmem; exact validate_kwargs_required_fail _ _ _ rfl h)
  · intro kind kwargs hok
    rw [validate_kwargs] at hok
    cases hr : requiredLoop (className kind) kwargs (requiredKwargs kind) with
    | error e => rw [hr] at hok; simp at hok
    | ok u => cases u; exact requiredLoop_ok_all _ _ _ hr

/-- Witness for C6: constructing a `CharField` with no keyword arguments
fails with the message naming `max_length` and the class. -/
theorem c6_witness :
    validate_kwargs FieldKind.charField [] =
      Except.error (.fieldError ("\"" ++ className FieldKind.charField ++ "\" field requires "
        ++ "max_length")) :=
  c6_required_kwargs_declaration.1 FieldKind.charField [] "max_length" (by simp [requiredKwargs]) rfl

theorem string_isEmpty_eq_nil (s : String) (h : s.isEmpty = true) : s = "" := by
  cases s with
  | mk l =>
      cases l with
      | nil => rfl
      | cons c cs =>
          simp [String.isEmpty, String.endPos, String.utf8ByteSize] at h
          have := Char.utf8Size_pos c
          have h2 : String.utf8Len cs + c.utf8Size = 0 := congrArg String.Pos.byteIdx h
          omega

theorem set_field_name_ok_inv (s t : String) (h : set_field_name s = Except.ok t) :
    hasSubstr s.data "__".data = false ∧ "_".data.isPrefixOf s.data = false ∧
      "_".data.isSuffixOf s.data = false := by
  rw [set_field_name] at h
  by_cases h1 : hasSubstr s.data "__".data = true
  · simp [h1] at h
  · by_cases h2 : "_".data.isPrefixOf s.data = true
    · simp [h1, h2] at h
    · by_cases h3 : "_".data.isSuffixOf s.data = true
      · simp [h1, h2, h3] at h
      · exact ⟨by rwa [Bool.not_eq_true] at h1, by rwa [Bool.not_eq_true] at h2,
          by rwa [Bool.not_eq_true] at h3⟩

theorem validate_kwargs_ok_db_column_inv (kind : FieldKind) (kwargs : Kwargs) (s : String)
    (hlook : List.lookup "db_column" kwargs = some (PyVal.str s))
    (hok : validate_kwargs kind kwargs = Except.ok ()) :
    hasSubstr s.data "__".data = false ∧ "_".data.isPrefixOf s.data = false ∧
      "_".data.isSuffixOf s.data = false := by
  have hget : kwargsGetD kwargs "db_column" (.str "") = .str s := by
    rw [kwargsGetD, hlook]
  rw [validate_kwargs] at hok
  cases hr : requiredLoop (className kind) kwargs (requiredKwargs kind) with
  | error e => rw [hr] at hok; simp at hok
  | ok u =>
      cases u
      rw [hr] at hok
      cases ht : typeCheckLoop kwargs with
      | error e => rw [ht] at hok; simp at hok
      | ok u2 =>
          cases u2
          rw [ht, hget] at hok
          by_cases hp : pyTruthy (PyVal.str s) = true
          · simp only [hp, if_true] at hok
            cases hsf : set_field_name s with
            | error e => rw [hsf] at hok; simp at hok
            | ok t => exact set_field_name_ok_inv s t hsf
          · have hemp : s = "" := by
              simp only [pyTruthy, Bool.not_eq_true] at hp
              exact string_isEmpty_eq_nil s (by
                cases hie : s.isEmpty
                · rw [hie] at hp; simp at hp
                · rfl)
            subst hemp
            exact ⟨rfl, rfl, rfl⟩

/-- Claim C7: a successfully constructed descriptor whose `db_column`
was supplied satisfies the identifier invariant — no `__` substring, no
leading `_`, no trailing `_` (an empty `db_column` skips
`set_field_name` but satisfies the invariant vacuously); and a supplied
`db_column` violating any of the three rules makes construction fail. -/
theorem c7_db_column_invariant :
    (∀ (kind : FieldKind) (kwargs : Kwargs) (s : String),
        List.lookup "db_column" kwargs = some (PyVal.str s) →
        validate_kwargs kind kwargs = Except.ok () →
        hasSubstr s.data "__".data = false ∧
        "_".data.isPrefixOf s.data = false ∧
        "_".data.isSuffixOf s.data = false) ∧
    (∀ (kind : FieldKind) (kwargs : Kwargs) (s : String),
        List.lookup "db_column" kwargs = some (PyVal.str s) →
        (hasSubstr s.data "__".data = true ∨
         "_".data.isPrefixOf s.data = true ∨
         "_".data.isSuffixOf s.data = true) →
        ∃ e, validate_kwargs kind kwargs = Except.error e) := by
  constructor
  · exact validate_kwargs_ok_db_column_inv
  · intro kind kwargs s hlook hviol
    cases hv : validate_kwargs kind kwargs with
    | error e => exact ⟨e, rfl⟩
    | ok u =>
        cases u
        obtain ⟨f1, f2, f3⟩ := validate_kwargs_ok_db_column_inv kind kwargs s hlook hv
        rcases hviol with h | h | h
        · rw [f1] at h; exact absurd h (by simp)
        · rw [f2] at h; exact absurd h (by simp)
        · rw [f3] at h; exact absurd h (by simp)

/-- Witness for C7: a `CharField` declared with `db_column="a__b"`
fails, and one declared with `db_column="ab"` succeeds and satisfies
the invariant. -/
theorem c7_witness :
    (∃ e, validate_kwargs FieldKind.charField
        [("db_column", .str "a__b"), ("max_length", .int 5)] = Except.error e) ∧
    (hasSubstr ("ab" : String).data "__".data = false ∧
      "_".data.isPrefixOf ("ab" : String).data = false ∧
      "_".data.isSuffixOf ("ab" : String).data = false) :=
  ⟨c7_db_column_invariant.2 FieldKind.charField
      [("db_column", .str "a__b"), ("max_length", .int 5)] "a__b" rfl (Or.inl rfl),
   c7_db_column_invariant.1 FieldKind.charField
      [("db_column", .str "ab"), ("max_length", .int 5)] "ab" rfl rfl⟩

/-- Counterexample to claim C1: a *nullable* integer descriptor
(`null=True`) still fails `validate(None)` — the `isinstance` check runs
on `None` and `None` matches no `internal_type` — so `validate(None)`
does not succeed on nullable descriptors. -/
theorem c1_counterexample :
    kindValidate FieldKind.integerField true Option.none PyVal.none =
      Except.error (.fieldError "None is a wrong datatype for field IntegerField") := rfl

theorem field_validate_none_error (choicesAttr : Option (List (PyVal × PyVal)))
    (its : List PyType) (cname : String)
    (hits : isinstAny PyVal.none its = false) :
    ∃ e, Field.validate true choicesAttr its cname PyVal.none = Except.error e := by
  cases choicesAttr with
  | none =>
      refine ⟨.fieldError (pyStr PyVal.none ++ " is a wrong datatype for field " ++ cname), ?_⟩
      rw [Field.validate]
      simp [isNoneV, hits]
  | some cs =>
      by_cases hmem : cs.any (fun kv => pyEq kv.1 PyVal.none) = true
      · refine ⟨.fieldError (pyStr PyVal.none ++ " is a wrong datatype for field " ++ cname), ?_⟩
        rw [Field.validate]
        simp [isNoneV, hmem, hits]
      · have heq : cs.any (fun kv => pyEq kv.1 PyVal.none) = false := by
          rwa [Bool.not_eq_true] at hmem
        refine ⟨.fieldError ("\"" ++ pyStr PyVal.none ++ "\" not in model choices"), ?_⟩
        rw [Field.validate]
        simp [isNoneV, heq]

/-- Claim C1 (amended): `validate(None)` never succeeds, for any field
kind and any descriptor.  On a non-nullable descriptor of every kind
except `ManyToMany` it fails with the nullability `FieldError`; on a
nullable descriptor it still fails (with a choices or wrong-datatype
`FieldError`, since `None` matches no kind's `internal_type`); and on
`ManyToMany` — whose constructor accepts no `null` keyword — it fails
with an `AttributeError` instead. -/
theorem c1_validate_none_never_succeeds (kind : FieldKind) (nullAttr : Bool)
    (choicesAttr : Option (List (PyVal × PyVal))) :
    (∃ e, kindValidate kind nullAttr choicesAttr PyVal.none = Except.error e) ∧
    (nullAttr = false → kind ≠ FieldKind.manyToMany →
      kindValidate kind nullAttr choicesAttr PyVal.none =
        Except.error (.fieldError "null value in NOT NULL field")) := by
  constructor
  · cases kind with
    | manyToMany => exact ⟨.attributeError "ManyToMany object has no attribute null", rfl⟩
    | emailField =>
        cases nullAttr with
        | false => exact ⟨.fieldError "null value in NOT NULL field", rfl⟩
        | true =>
            obtain ⟨e, he⟩ := field_validate_none_error choicesAttr [.str_] "EmailField" rfl
            exact ⟨e, by simp [kindValidate, EmailField.validate, he]⟩
    | pkField =>
        cases nullAttr with
        | false => exact ⟨.fieldError "null value in NOT NULL field", rfl⟩
        | true => exact field_validate_none_error Option.none [.int_] "PkField" rfl
    | booleanField =>
        cases nullAttr with
        | false => exact ⟨.fieldError "null value in NOT NULL field", rfl⟩
        | true => exact field_validate_none_error Option.none [.bool_] "BooleanField" rfl
    | charField =>
        cases nullAttr with
        | false => exact ⟨.fieldError "null value in NOT NULL field", rfl⟩
        | true => exact field_validate_none_error choicesAttr [.str_] "CharField" rfl
    | jsonField =>
        cases nullAttr with
        | false => exact ⟨.fieldError "null value in NOT NULL field", rfl⟩
        | true =>
            exact field_validate_none_error choicesAttr [.dict_, .list_, .str_] "JsonField" rfl
    | integerField =>
        cases nullAttr with
        | false => exact ⟨.fieldError "null value in NOT NULL field", rfl⟩
        | true => exact field_validate_none_error choicesAttr [.int_] "IntegerField" rfl
    | decimalField =>
        cases nullAttr with
        | false => exact ⟨.fieldError "null value in NOT NULL field", rfl⟩
        | true =>
            exact field_validate_none_error choicesAttr [.decimal_, .float_, .int_]
              "DecimalField" rfl
    | dateField =>
        cases nullAttr with
        | false => exact ⟨.fieldError "null value in NOT NULL field", rfl⟩
        | true => exact field_validate_none_error choicesAttr [.datetime_] "DateField" rfl
    | foreignKey =>
        cases nullAttr with
        | false => exact ⟨.fieldError "null value in NOT NULL field", rfl⟩
        | true => exact field_validate_none_error Option.none [.int_] "ForeignKey" rfl
  · intro hnull hkind
    subst hnull
    cases kind with
    | manyToMany => exact absurd rfl hkind
    | pkField => rfl
    | booleanField => rfl
    | charField => rfl
    | emailField => rfl
    | jsonField => rfl
    | integerField => rfl
    | decimalField => rfl
    | dateField => rfl
    | foreignKey => rfl

/-- Witness for C1 (amended): the non-nullable `CharField` case. -/
theorem c1_witness :
    kindValidate FieldKind.charField false Option.none PyVal.none =
      Except.error (.fieldError "null value in NOT NULL field") :=
  (c1_validate_none_never_succeeds FieldKind.charField false Option.none).2 rfl
    (by intro h; exact FieldKind.noConfusion h)

/-- Counterexample to claim C8: for a multi-target descriptor,
`validate([["x"]])` succeeds — each element only gets the *base* check,
and `["x"]` is an instance of `(list, int)` — while `validate(["x"])`
applied to that element itself fails.  So element-wise success of the
descriptor's own `validate` is not equivalent to success on the list. -/
theorem c8_counterexample :
    ManyToMany.validate (.list [.list [.str "x"]]) = Except.ok () ∧
    ManyToMany.validate (.list [.str "x"]) =
      Except.error (.fieldError "x is a wrong datatype for field ManyToMany") :=
  ⟨rfl, rfl⟩

/-- Claim C8 (amended): `ManyToMany.validate([v1, ..., vn])` succeeds
iff the inherited *base* validation (`super().validate`, i.e. the
`Field`-level check against `(list, int)`) succeeds on every element
individually; a non-list value gets that base validation as a single
value.  Since an element that is itself a list only gets the base type
check, this differs from applying the descriptor's own `validate` to
the element. -/
theorem c8_m2m_elementwise_base_validation :
    (∀ xs : List PyVal,
        ManyToMany.validate (.list xs) = Except.ok () ↔
          ∀ x ∈ xs, ManyToMany.super_validate x = Except.ok ()) ∧
    (∀ v : PyVal, (∀ ys, v ≠ .list ys) →
        ManyToMany.validate v = ManyToMany.super_validate v) := by
  constructor
  · intro xs
    have main : ∀ ys : List PyVal,
        ManyToMany.validateList ys = Except.ok () ↔
          ∀ x ∈ ys, ManyToMany.super_validate x = Except.ok () := by
      intro ys
      induction ys with
      | nil => simp [ManyToMany.validateList]
      | cons x rest ih =>
          rw [ManyToMany.validateList]
          cases hx : ManyToMany.super_validate x with
          | error e =>
              constructor
              · intro h; exact absurd h (by simp)
              · intro h
                have := h x (by simp)
                rw [hx] at this
                exact absurd this (by simp)
          | ok u =>
              cases u
              rw [ih]
              constructor
              · intro h y hy
                rcases List.mem_cons.mp hy with rfl | hy'
                · exact hx
                · exact h y hy'
              · intro h y hy
                exact h y (List.mem_cons_of_mem x hy)
    exact main xs
  · intro v hv
    cases v with
    | list ys => exact absurd rfl (hv ys)
    | none => rfl
    | bool b => rfl
    | int n => rfl
    | str s => rfl
    | datetime y mo d h mi s => rfl
    | tuple xs => rfl
    | dict kvs => rfl

/-- Witness for C8 (amended): `validate([1, 2, 3])` succeeds because
each element passes the base check. -/
theorem c8_witness :
    ManyToMany.validate (.list [.int 1, .int 2, .int 3]) = Except.ok () :=
  (c8_m2m_elementwise_base_validation.1 [.int 1, .int 2, .int 3]).mpr
    (by intro x hx; simp at hx; rcases hx with rfl | rfl | rfl <;> rfl)

/-- Counterexample to claim C4: a date descriptor with an explicit
default *can* produce a fragment containing `now()` — e.g. the string
default `"now()"` is quoted verbatim into the `DEFAULT` clause — so
"never contains `now()`" fails as stated (the `auto_now` branch is
indeed skipped; the text comes from the default itself). -/
theorem c4_counterexample :
    DateField.creation_query
        { db_column := "created", nullAttr := false, unique := false,
          defaultAttr := some (.val (.str "now()")), auto_now := true,
          choicesAttr := Option.none } =
      Except.ok ("created timestamp NOT NULL DEFAULT " ++ squote ++ "now()" ++ squote) ∧
    strContains ("created timestamp NOT NULL DEFAULT " ++ squote ++ "now()" ++ squote)
      "now()" = true :=
  ⟨rfl, rfl⟩

/-- Claim C4 (amended): on a date/time descriptor with `auto_now` set
and no explicit default, the fragment contains `DEFAULT now()`; an
explicit default takes precedence in the sense that the `auto_now`
branch contributes nothing — the fragment is identical to the one built
with `auto_now` unset — though the fragment can still contain the text
`now()` when the rendered default itself does. -/
theorem c4_auto_now_default_precedence :
    (∀ st : FieldState, st.defaultAttr = Option.none → st.auto_now = true →
        ∃ s, DateField.creation_query st = Except.ok s ∧
          strContains s "DEFAULT now()" = true) ∧
    (∀ (st : FieldState) (d : DefaultVal), st.defaultAttr = some d →
        DateField.creation_query { st with auto_now := true } =
          DateField.creation_query { st with auto_now := false }) := by
  constructor
  · intro st hd ha
    obtain ⟨db, n, u, df, an, ch⟩ := st
    simp only at hd ha
    subst hd; subst ha
    refine ⟨_, rfl, ?_⟩
    exact strContains_append_right _ _ _ (strContains_append_left _ _ _ rfl)
  · intro st d hd
    obtain ⟨db, n, u, df, an, ch⟩ := st
    simp only at hd
    subst hd
    rfl

/-- Witness for C4 (amended): a concrete `auto_now` date descriptor
without a default, and a concrete one with a datetime default. -/
theorem c4_witness :
    (∃ s, DateField.creation_query
        { db_column := "created", nullAttr := false, unique := false,
          defaultAttr := Option.none, auto_now := true, choicesAttr := Option.none } =
        Except.ok s ∧ strContains s "DEFAULT now()" = true) ∧
    DateField.creation_query
        { db_column := "created", nullAttr := false, unique := false,
          defaultAttr := some (.val (.datetime 2020 1 2 3 4 5)), auto_now := true,
          choicesAttr := Option.none } =
      DateField.creation_query
        { db_column := "created", nullAttr := false, unique := false,
          defaultAttr := some (.val (.datetime 2020 1 2 3 4 5)), auto_now := false,
          choicesAttr := Option.none } :=
  ⟨c4_auto_now_default_precedence.1
      { db_column := "created", nullAttr := false, unique := false,
        defaultAttr := Option.none, auto_now := true, choicesAttr := Option.none } rfl rfl,
   c4_auto_now_default_precedence.2
      { db_column := "created", nullAttr := false, unique := false,
        defaultAttr := some (.val (.datetime 2020 1 2 3 4 5)), auto_now := true,
        choicesAttr := Option.none } (.val (.datetime 2020 1 2 3 4 5)) rfl⟩

theorem reencode_of_canonical (v : PyVal) (t : String)
    (hc : jsonCanonicalText v = some t) : JsonField.reencode v = Except.ok t := by
  cases v with
  | str s =>
      simp only [jsonCanonicalText] at hc
      split at hc
      next j heq =>
          injection hc with hc'
          subst hc'
          have hnn : (s == "NULL") = false := by
            cases hb : s == "NULL"
            · rfl
            · exfalso
              have hs : s = "NULL" := eq_of_beq hb
              subst hs
              rw [show json_loads "NULL" = Except.error PyErr.jsonDecodeError from rfl] at heq
              exact Except.noConfusion heq
          simp [JsonField.reencode, pyEq, hnn, heq]
      next heq => exact absurd hc (by simp)
  | none =>
      simp only [jsonCanonicalText] at hc
      split at hc
      next j heq =>
          injection hc with hc'
          subst hc'
          simp [JsonField.reencode, pyEq, heq]
      next heq => exact absurd hc (by simp)
  | bool b =>
      simp only [jsonCanonicalText] at hc
      split at hc
      next j heq =>
          injection hc with hc'
          subst hc'
          simp [JsonField.reencode, pyEq, heq]
      next heq => exact absurd hc (by simp)
  | int n =>
      simp only [jsonCanonicalText] at hc
      split at hc
      next j heq =>
          injection hc with hc'
          subst hc'
          simp [JsonField.reencode, pyEq, heq]
      next heq => exact absurd hc (by simp)
  | datetime y mo d h mi s =>
      simp only [jsonCanonicalText] at hc
      split at hc
      next j heq =>
          injection hc with hc'
          subst hc'
          simp [JsonField.reencode, pyEq, heq]
      next heq => exact absurd hc (by simp)
  | list xs =>
      simp only [jsonCanonicalText] at hc
      split at hc
      next j heq =>
          injection hc with hc'
          subst hc'
          simp [JsonField.reencode, pyEq, heq]
      next heq => exact absurd hc (by simp)
  | tuple xs =>
      simp only [jsonCanonicalText] at hc
      split at hc
      next j heq =>
          injection hc with hc'
          subst hc'
          simp [JsonField.reencode, pyEq, heq]
      next heq => exact absurd hc (by simp)
  | dict kvs =>
      simp only [jsonCanonicalText] at hc
      split at hc
      next j heq =>
          injection hc with hc'
          subst hc'
          simp [JsonField.reencode, pyEq, heq]
      next heq => exact absurd hc (by simp)

/-- Claim C5: for character and JSON descriptors with `max_length = L`
and any value passing base validation, `sanitize_data` succeeds exactly
up to the length bound: text of length `≤ L` (for JSON, the canonically
re-encoded text) is quoted and returned, and length `L + 1` fails with
the length-violation `FieldError`. -/
theorem c5_length_threshold :
    (∀ (nullAttr : Bool) (choicesAttr : Option (List (PyVal × PyVal))) (L : Int) (s : String),
        Field.validate nullAttr choicesAttr [.str_] "CharField" (.str s) = Except.ok () →
        (((s.length : Int) ≤ L →
            CharField.sanitize_data nullAttr choicesAttr L (.str s) =
              Except.ok (.str (squote ++ s ++ squote))) ∧
         ((s.length : Int) = L + 1 →
            CharField.sanitize_data nullAttr choicesAttr L (.str s) =
              Except.error (.fieldError
                ("The string entered is bigger than the \"max_length\" defined ("
                  ++ intStrS L ++ ")"))))) ∧
    (∀ (nullAttr : Bool) (choicesAttr : Option (List (PyVal × PyVal))) (L : Int)
        (v : PyVal) (t : String),
        Field.validate nullAttr choicesAttr [.dict_, .list_, .str_] "JsonField" v =
          Except.ok () →
        jsonCanonicalText v = some t →
        (((t.length : Int) ≤ L →
            JsonField.sanitize_data nullAttr choicesAttr L v =
              Except.ok (.str (squote ++ t ++ squote))) ∧
         ((t.length : Int) = L + 1 →
            JsonField.sanitize_data nullAttr choicesAttr L v =
              Except.error (.fieldError
                ("The string entered is bigger than the \"max_length\" defined ("
                  ++ intStrS L ++ ")"))))) := by
  constructor
  · intro nullAttr choicesAttr L s hval
    have hsan : Field.sanitize_data nullAttr choicesAttr [.str_] "CharField" (.str s) =
        Except.ok (.str s) := by
      rw [Field.sanitize_data, hval]
      rfl
    constructor
    · intro hle
      simp only [CharField.sanitize_data, hsan]
      rw [if_neg (by omega)]
    · intro heq
      simp only [CharField.sanitize_data, hsan]
      rw [if_pos (by omega)]
  · intro nullAttr choicesAttr L v t hval hc
    have hre : JsonField.reencode v = Except.ok t := reencode_of_canonical v t hc
    constructor
    · intro hle
      simp only [JsonField.sanitize_data, hval, hre]
      rw [if_neg (by omega)]
    · intro heq
      simp only [JsonField.sanitize_data, hval, hre]
      rw [if_pos (by omega)]

/-- Witness for C5: a 3-character string against `max_length = 2`
(fails) and `max_length = 3` (succeeds and is quoted); and the empty
dict, whose canonical text has length 2, against `max_length = 2`. -/
theorem c5_witness :
    CharField.sanitize_data false Option.none 2 (.str "abc") =
        Except.error (.fieldError
          ("The string entered is bigger than the \"max_length\" defined ("
            ++ intStrS 2 ++ ")")) ∧
    CharField.sanitize_data false Option.none 3 (.str "abc") =
        Except.ok (.str (squote ++ "abc" ++ squote)) ∧
    JsonField.sanitize_data false Option.none 2 (.dict []) =
        Except.ok (.str (squote ++ "\x7b\x7d" ++ squote)) :=
  ⟨(c5_length_threshold.1 false Option.none 2 "abc" rfl).2 (by decide),
   (c5_length_threshold.1 false Option.none 3 "abc" rfl).1 (by decide),
   (c5_length_threshold.2 false Option.none 2 (.dict []) "\x7b\x7d" rfl rfl).1 (by decide)⟩

theorem charToNat_ofNat (n : Nat) (h : n.isValidChar) : (Char.ofNat n).toNat = n := by
  rw [Char.ofNat, dif_pos h]
  simp [Char.ofNatAux, Char.toNat, UInt32.toNat]

theorem char_beq_false_of_toNat_ne (c d : Char) (h : c.toNat ≠ d.toNat) : (c == d) = false :=
  beq_eq_false_iff_ne.mpr (fun he => h (congrArg Char.toNat he))

theorem hexDigitCh_toNat (k : Nat) (hk : k < 16) :
    (hexDigitCh k).toNat = if k < 10 then 48 + k else 87 + k := by
  by_cases h : k < 10
  · rw [hexDigitCh, if_pos h]
    exact charToNat_ofNat _ (Or.inl (by omega))
  · rw [hexDigitCh, if_neg h]
    exact charToNat_ofNat _ (Or.inl (by omega))

theorem hexVal_hexDigitCh (k : Nat) (hk : k < 16) : hexVal (hexDigitCh k) = some k := by
  have ht := hexDigitCh_toNat k hk
  by_cases h : k < 10
  · rw [if_pos h] at ht
    rw [hexVal, ht, if_pos (by omega)]
    congr 1
    omega
  · rw [if_neg h] at ht
    rw [hexVal, ht, if_neg (by omega), if_pos (by omega)]
    congr 1
    omega

theorem hex4Val_hex4 (n : Nat) (h : n < 65536) :
    hex4Val (hexDigitCh (n / 4096 % 16)) (hexDigitCh (n / 256 % 16))
      (hexDigitCh (n / 16 % 16)) (hexDigitCh (n % 16)) = some n := by
  rw [hex4Val, hexVal_hexDigitCh _ (Nat.mod_lt _ (by omega)),
    hexVal_hexDigitCh _ (Nat.mod_lt _ (by omega)),
    hexVal_hexDigitCh _ (Nat.mod_lt _ (by omega)),
    hexVal_hexDigitCh _ (Nat.mod_lt _ (by omega))]
  exact congrArg some (by omega)

theorem isDigitCh_iff (c : Char) : isDigitCh c = true ↔ 48 ≤ c.toNat ∧ c.toNat ≤ 57 := by
  simp [isDigitCh]

theorem natDigitsRevAux_ne_nil (fuel n : Nat) : natDigitsRevAux (fuel + 1) n ≠ [] := by
  rw [natDigitsRevAux]
  by_cases h : n < 10
  · rw [if_pos h]; exact List.cons_ne_nil _ _
  · rw [if_neg h]; exact List.cons_ne_nil _ _

theorem natDigitsRevAux_digits (fuel : Nat) :
    ∀ n, n < fuel → ∀ c ∈ natDigitsRevAux fuel n, isDigitCh c = true := by
  induction fuel with
  | zero => intro n hn; omega
  | succ f ih =>
      intro n hn c hc
      rw [natDigitsRevAux] at hc
      by_cases h : n < 10
      · rw [if_pos h] at hc
        rcases List.mem_singleton.mp hc with rfl
        rw [isDigitCh_iff, charToNat_ofNat _ (Or.inl (by omega))]
        omega
      · rw [if_neg h] at hc
        rcases List.mem_cons.mp hc with rfl | hc'
        · rw [isDigitCh_iff, charToNat_ofNat _ (Or.inl (by omega))]
          have := Nat.mod_lt n (show 0 < 10 by omega)
          omega
        · exact ih (n / 10) (by
            have h1 : n / 10 < n := Nat.div_lt_self (by omega) (by omega)
            omega) c hc'

theorem digitsVal_append_singleton (l : List Char) (d : Char) :
    digitsVal (l ++ [d]) = 10 * digitsVal l + (d.toNat - 48) := by
  rw [digitsVal, digitsVal, List.foldl_append]
  simp [Nat.mul_comm]

theorem natDigitsRevAux_val (fuel : Nat) :
    ∀ n, n < fuel → digitsVal ((natDigitsRevAux fuel n).reverse) = n := by
  induction fuel with
  | zero => intro n hn; omega
  | succ f ih =>
      intro n hn
      rw [natDigitsRevAux]
      by_cases h : n < 10
      · rw [if_pos h]
        simp only [List.reverse_singleton, digitsVal, List.foldl_cons, List.foldl_nil,
          Nat.zero_mul, Nat.zero_add]
        rw [charToNat_ofNat _ (Or.inl (by omega))]
        omega
      · rw [if_neg h]
        rw [List.reverse_cons, digitsVal_append_singleton]
        rw [ih (n / 10) (by
          have h1 : n / 10 < n := Nat.div_lt_self (by omega) (by omega)
          omega)]
        rw [charToNat_ofNat _ (Or.inl (by
          have := Nat.mod_lt n (show 0 < 10 by omega)
          omega))]
        have hm := Nat.mod_lt n (show 0 < 10 by omega)
        have := Nat.div_add_mod n 10
        omega

theorem natDigitsRevAux_head_pos (fuel : Nat) :
    ∀ n, 0 < n → n < fuel →
      ∃ c cs, (natDigitsRevAux fuel n).reverse = c :: cs ∧ c.toNat ≠ 48 ∧
        isDigitCh c = true := by
  induction fuel with
  | zero => intro n hp hn; omega
  | succ f ih =>
      intro n hp hn
      rw [natDigitsRevAux]
      by_cases h : n < 10
      · rw [if_pos h]
        refine ⟨Char.ofNat (48 + n), [], by simp, ?_, ?_⟩
        · rw [charToNat_ofNat _ (Or.inl (by omega))]
          omega
        · rw [isDigitCh_iff, charToNat_ofNat _ (Or.inl (by omega))]
          omega
      · rw [if_neg h]
        obtain ⟨c, cs, hcons, hne, hd⟩ := ih (n / 10)
          (Nat.div_pos (by omega) (by omega))
          (by
            have h1 : n / 10 < n := Nat.div_lt_self (by omega) (by omega)
            omega)
        refine ⟨c, cs ++ [Char.ofNat (48 + n % 10)], ?_, hne, hd⟩
        rw [List.reverse_cons, hcons]
        rfl

theorem takeWhile_append_of_all (p : Char → Bool) (l r : List Char)
    (hl : ∀ c ∈ l, p c = true) (hr : ∀ c, r.head? = some c → p c = false) :
    (l ++ r).takeWhile p = l := by
  induction l with
  | nil =>
      cases r with
      | nil => rfl
      | cons c t =>
          rw [List.nil_append, List.takeWhile_cons, if_neg (by simp [hr c rfl])]
  | cons a l ih =>
      rw [List.cons_append, List.takeWhile_cons, if_pos (hl a (by simp)),
        ih (fun c hc => hl c (List.mem_cons_of_mem a hc))]

theorem parseUNum_natStr (n : Nat) (rest : List Char)
    (hr : ∀ c, rest.head? = some c → isDigitCh c = false) :
    parseUNum (natStr n ++ rest) = some (n, rest) := by
  by_cases h0 : n = 0
  · subst h0
    rfl
  · obtain ⟨c, cs, hcons, hne, hd⟩ :=
      natDigitsRevAux_head_pos (n + 1) n (by omega) (by omega)
    have hns : natStr n = c :: cs := hcons
    have hall : ∀ x ∈ c :: cs, isDigitCh x = true := by
      intro x hx
      have : x ∈ (natDigitsRevAux (n + 1) n).reverse := by rw [hcons]; exact hx
      exact natDigitsRevAux_digits (n + 1) n (by omega) x (List.mem_reverse.mp this)
    have hval : digitsVal (c :: cs) = n := by
      rw [← hcons]
      exact natDigitsRevAux_val (n + 1) n (by omega)
    rw [hns, List.cons_append, parseUNum,
      if_neg (by rw [char_beq_false_of_toNat_ne c '0' hne]; exact Bool.false_ne_true)]
    have htw : ((c :: cs) ++ rest).takeWhile isDigitCh = c :: cs :=
      takeWhile_append_of_all isDigitCh (c :: cs) rest hall hr
    rw [List.cons_append] at htw
    simp only [htw]
    rw [if_neg (by simp)]
    have hdrop : ((c :: cs) ++ rest).drop (c :: cs).length = rest := List.drop_left _ _
    rw [List.cons_append] at hdrop
    simp only [List.length_cons] at hdrop ⊢
    rw [hdrop, hval]

/-- A remainder a printed JSON number may be followed by: empty, or a
head that cannot extend the number (no digit, no fraction/exponent
mark).  Inside printed arrays/objects the remainder starts with `,`,
`]` or the closing brace; at top level it is empty. -/
def goodFollow : List Char → Bool
  | [] => true
  | c :: _ => !(isDigitCh c) && !(c == '.') && !(c == 'e') && !(c == 'E')

theorem goodFollow_head_digit (rest : List Char) (h : goodFollow rest = true) :
    ∀ c, rest.head? = some c → isDigitCh c = false := by
  intro c hc
  cases rest with
  | nil => simp at hc
  | cons d t =>
      injection hc with hc'
      subst hc'
      rw [goodFollow] at h
      simp only [Bool.and_eq_true, Bool.not_eq_true'] at h
      exact h.1.1.1

theorem natStr_ne_nil (n : Nat) : natStr n ≠ [] := by
  rw [natStr]
  intro h
  exact natDigitsRevAux_ne_nil n n (by simpa using congrArg List.reverse h)

theorem numFinish_some (neg : Bool) (n : Nat) (rest : List Char)
    (hgf : goodFollow rest = true) :
    numFinish neg (some (n, rest)) =
      some (.jint (if neg then -(n : Int) else (n : Int)), rest) := by
  cases rest with
  | nil => rfl
  | cons c t =>
      rw [goodFollow] at hgf
      simp only [Bool.and_eq_true, Bool.not_eq_true'] at hgf
      rw [numFinish]
      rw [if_neg (by simp [hgf.1.1.2, hgf.1.2, hgf.2])]

theorem parseNum_intStr (n : Int) (rest : List Char) (hgf : goodFollow rest = true) :
    parseNum (intStr n ++ rest) = some (.jint n, rest) := by
  have hpu : ∀ m : Nat, parseUNum (natStr m ++ rest) = some (m, rest) :=
    fun m => parseUNum_natStr m rest (goodFollow_head_digit rest hgf)
  by_cases hneg : n < 0
  · rw [intStr, if_pos hneg, List.cons_append, parseNum, if_pos (by rfl),
      hpu (-n).toNat, numFinish_some true _ _ hgf, if_pos rfl]
    have : -(((-n).toNat : Nat) : Int) = n := by
      have := Int.toNat_of_nonneg (show (0 : Int) ≤ -n by omega)
      omega
    rw [this]
  · obtain ⟨c, cs, hcons⟩ : ∃ c cs, natStr n.toNat = c :: cs := by
      cases hx : natStr n.toNat with
      | nil => exact absurd hx (natStr_ne_nil _)
      | cons c cs => exact ⟨c, cs, rfl⟩
    have hdig : isDigitCh c = true := by
      have hmem : c ∈ (natDigitsRevAux (n.toNat + 1) n.toNat).reverse := by
        rw [show (natDigitsRevAux (n.toNat + 1) n.toNat).reverse = natStr n.toNat from rfl,
          hcons]
        simp
      exact natDigitsRevAux_digits (n.toNat + 1) n.toNat (by omega) c
        (List.mem_reverse.mp hmem)
    have hc45 : (c == '-') = false := by
      apply char_beq_false_of_toNat_ne
      rw [isDigitCh_iff] at hdig
      intro hx
      rw [hx] at hdig
      simp at hdig
    rw [intStr, if_neg hneg, hcons, List.cons_append, parseNum,
      if_neg (by simp [hc45]), ← List.cons_append, ← hcons, hpu n.toNat,
      numFinish_some false _ _ hgf, if_neg (by simp)]
    have : ((n.toNat : Nat) : Int) = n := Int.toNat_of_nonneg (by omega)
    rw [this]

theorem char_toNat_isValidChar (c : Char) : c.toNat.isValidChar := c.valid


theorem parseStrAux_plain(c : Char) (r : List Char) (h1 : (c == '"') = false)
    (h2 : (c == '\\') = false) (h3 : ¬(c.toNat < 32)) :
    parseStrAux (c :: r) = (parseStrAux r).map (fun p => (c :: p.1, p.2)) := by
  rw [parseStrAux, if_neg (by simp [h1]), if_neg (by simp [h2]), if_neg h3]

theorem parseU_bmp (n : Nat) (hn : n < 65536) (hv : n < 55296 ∨ 57343 < n)
    (more : List Char) :
    parseU (hex4 n ++ more) = (parseStrAux more).map (fun p => (Char.ofNat n :: p.1, p.2)) := by
  rw [hex4]
  simp only [List.cons_append, List.nil_append]
  rw [parseU, hex4Val_hex4 n hn]
  show (if n < 55296 ∨ 57343 < n then
      Option.map (fun p => (Char.ofNat n :: p.1, p.2)) (parseStrAux more)
    else if n < 56320 then parseLowSur n more else Option.none) =
    Option.map (fun p => (Char.ofNat n :: p.1, p.2)) (parseStrAux more)
  rw [if_pos hv]

theorem parseU_surrogate (n : Nat) (h1 : 65536 ≤ n) (h2 : n < 1114112)
    (more : List Char) :
    parseU (hex4 (55296 + (n - 65536) / 1024) ++
        '\\' :: 'u' :: hex4 (56320 + (n - 65536) % 1024) ++ more) =
      (parseStrAux more).map (fun p => (Char.ofNat n :: p.1, p.2)) := by
  have hdiv : (n - 65536) / 1024 < 1024 := by omega
  have hmod : (n - 65536) % 1024 < 1024 := Nat.mod_lt _ (by omega)
  rw [hex4, hex4]
  simp only [List.cons_append, List.nil_append]
  rw [parseU, hex4Val_hex4 _ (by omega)]
  show (if 55296 + (n - 65536) / 1024 < 55296 ∨ 57343 < 55296 + (n - 65536) / 1024 then
      Option.map (fun p => (Char.ofNat (55296 + (n - 65536) / 1024) :: p.1, p.2))
        (parseStrAux ('\\' :: 'u' :: hexDigitCh ((56320 + (n - 65536) % 1024) / 4096 % 16) ::
          hexDigitCh ((56320 + (n - 65536) % 1024) / 256 % 16) ::
          hexDigitCh ((56320 + (n - 65536) % 1024) / 16 % 16) ::
          hexDigitCh ((56320 + (n - 65536) % 1024) % 16) :: more))
    else if 55296 + (n - 65536) / 1024 < 56320 then
      parseLowSur (55296 + (n - 65536) / 1024)
        ('\\' :: 'u' :: hexDigitCh ((56320 + (n - 65536) % 1024) / 4096 % 16) ::
          hexDigitCh ((56320 + (n - 65536) % 1024) / 256 % 16) ::
          hexDigitCh ((56320 + (n - 65536) % 1024) / 16 % 16) ::
          hexDigitCh ((56320 + (n - 65536) % 1024) % 16) :: more)
    else Option.none) =
    Option.map (fun p => (Char.ofNat n :: p.1, p.2)) (parseStrAux more)
  rw [if_neg (by omega), if_pos (by omega)]
  rw [parseLowSur, if_pos (by decide), hex4Val_hex4 _ (by omega)]
  show (if 56320 ≤ 56320 + (n - 65536) % 1024 ∧ 56320 + (n - 65536) % 1024 < 57344 then
      Option.map (fun p => (Char.ofNat (65536 + (55296 + (n - 65536) / 1024 - 55296) * 1024 +
        (56320 + (n - 65536) % 1024 - 56320)) :: p.1, p.2)) (parseStrAux more)
    else Option.none) =
    Option.map (fun p => (Char.ofNat n :: p.1, p.2)) (parseStrAux more)
  rw [if_pos (by omega)]
  have harith : 65536 + (55296 + (n - 65536) / 1024 - 55296) * 1024 +
      (56320 + (n - 65536) % 1024 - 56320) = n := by omega
  rw [harith]

theorem parseStrAux_escapeChar (c : Char) (r : List Char) :
    parseStrAux (escapeChar c ++ r) = (parseStrAux r).map (fun p => (c :: p.1, p.2)) := by
  by_cases h1 : c = '"'
  · subst h1; rfl
  by_cases h2 : c = '\\'
  · subst h2; rfl
  by_cases h3 : c = '\x08'
  · subst h3; rfl
  by_cases h4 : c = '\x0c'
  · subst h4; rfl
  by_cases h5 : c = '\n'
  · subst h5; rfl
  by_cases h6 : c = '\r'
  · subst h6; rfl
  by_cases h7 : c = '\t'
  · subst h7; rfl
  have e1 : (c == '"') = false := beq_eq_false_iff_ne.mpr h1
  have e2 : (c == '\\') = false := beq_eq_false_iff_ne.mpr h2
  have e3 : (c == '\x08') = false := beq_eq_false_iff_ne.mpr h3
  have e4 : (c == '\x0c') = false := beq_eq_false_iff_ne.mpr h4
  have e5 : (c == '\n') = false := beq_eq_false_iff_ne.mpr h5
  have e6 : (c == '\r') = false := beq_eq_false_iff_ne.mpr h6
  have e7 : (c == '\t') = false := beq_eq_false_iff_ne.mpr h7
  by_cases h8 : c.toNat < 32
  · rw [escapeChar, if_neg (by simp [e1]), if_neg (by simp [e2]), if_neg (by simp [e3]),
      if_neg (by simp [e4]), if_neg (by simp [e5]), if_neg (by simp [e6]),
      if_neg (by simp [e7]), if_pos h8]
    rw [List.cons_append, List.cons_append]
    rw [parseStrAux, if_neg (by decide), if_pos (by decide)]
    rw [parseEsc, if_neg (by decide), if_neg (by decide), if_neg (by decide),
      if_neg (by decide), if_neg (by decide), if_neg (by decide), if_neg (by decide),
      if_neg (by decide), if_pos (by decide)]
    rw [parseU_bmp c.toNat (by omega) (Or.inl (by omega)) r, Char.ofNat_toNat]
  by_cases h9 : c.toNat ≤ 126
  · rw [escapeChar, if_neg (by simp [e1]), if_neg (by simp [e2]), if_neg (by simp [e3]),
      if_neg (by simp [e4]), if_neg (by simp [e5]), if_neg (by simp [e6]),
      if_neg (by simp [e7]), if_neg h8, if_pos h9]
    rw [List.cons_append, List.nil_append]
    exact parseStrAux_plain c r e1 e2 h8
  by_cases h10 : c.toNat < 65536
  · rw [escapeChar, if_neg (by simp [e1]), if_neg (by simp [e2]), if_neg (by simp [e3]),
      if_neg (by simp [e4]), if_neg (by simp [e5]), if_neg (by simp [e6]),
      if_neg (by simp [e7]), if_neg h8, if_neg h9, if_pos h10]
    rw [List.cons_append, List.cons_append]
    rw [parseStrAux, if_neg (by decide), if_pos (by decide)]
    rw [parseEsc, if_neg (by decide), if_neg (by decide), if_neg (by decide),
      if_neg (by decide), if_neg (by decide), if_neg (by decide), if_neg (by decide),
      if_neg (by decide), if_pos (by decide)]
    have hv : c.toNat < 55296 ∨ 57343 < c.toNat := by
      rcases char_toNat_isValidChar c with h | ⟨ha, hb⟩
      · exact Or.inl h
      · exact Or.inr ha
    rw [parseU_bmp c.toNat h10 hv r, Char.ofNat_toNat]
  · rw [escapeChar, if_neg (by simp [e1]), if_neg (by simp [e2]), if_neg (by simp [e3]),
      if_neg (by simp [e4]), if_neg (by simp [e5]), if_neg (by simp [e6]),
      if_neg (by simp [e7]), if_neg h8, if_neg h9, if_neg h10]
    rw [List.cons_append, List.cons_append, List.append_assoc, List.cons_append,
      List.cons_append]
    rw [parseStrAux, if_neg (by decide), if_pos (by decide)]
    rw [parseEsc, if_neg (by decide), if_neg (by decide), if_neg (by decide),
      if_neg (by decide), if_neg (by decide), if_neg (by decide), if_neg (by decide),
      if_neg (by decide), if_pos (by decide)]
    have h11 : c.toNat < 1114112 := by
      rcases char_toNat_isValidChar c with h | ⟨ha, hb⟩
      · omega
      · omega
    conv_rhs => rw [← Char.ofNat_toNat c]
    exact parseU_surrogate c.toNat (by omega) h11 r

theorem parseStrAux_escapeStr (s : List Char) (r : List Char) :
    parseStrAux (escapeStr s ++ '"' :: r) = some (s, r) := by
  induction s with
  | nil => rfl
  | cons c cs ih =>
      rw [escapeStr, List.append_assoc, parseStrAux_escapeChar, ih]
      rfl

theorem skipWs_cons_not (c : Char) (l : List Char) (h : isWsCh c = false) :
    skipWs (c :: l) = c :: l := by
  rw [skipWs, if_neg (by simp [h])]

theorem digit_head_facts (c : Char) (hd : isDigitCh c = true) :
    isWsCh c = false ∧ (c == ']') = false ∧ (c == '\x7d') = false ∧
      (c == '"') = false ∧ (c == '[') = false ∧ (c == '\x7b') = false ∧
      (c == 'n') = false ∧ (c == 't') = false ∧ (c == 'f') = false := by
  rw [isDigitCh_iff] at hd
  refine ⟨?_, ?_, ?_, ?_, ?_, ?_, ?_, ?_, ?_⟩
  · rw [isWsCh,
      char_beq_false_of_toNat_ne c ' ' (by intro h; rw [show (' ').toNat = 32 from rfl] at h; omega),
      char_beq_false_of_toNat_ne c '\t' (by intro h; rw [show ('\t').toNat = 9 from rfl] at h; omega),
      char_beq_false_of_toNat_ne c '\n' (by intro h; rw [show ('\n').toNat = 10 from rfl] at h; omega),
      char_beq_false_of_toNat_ne c '\r' (by intro h; rw [show ('\r').toNat = 13 from rfl] at h; omega)]
    rfl
  · exact char_beq_false_of_toNat_ne c ']'
      (by intro h; rw [show (']').toNat = 93 from rfl] at h; omega)
  · exact char_beq_false_of_toNat_ne c '\x7d'
      (by intro h; rw [show ('\x7d').toNat = 125 from rfl] at h; omega)
  · exact char_beq_false_of_toNat_ne c '"'
      (by intro h; rw [show ('"').toNat = 34 from rfl] at h; omega)
  · exact char_beq_false_of_toNat_ne c '['
      (by intro h; rw [show ('[').toNat = 91 from rfl] at h; omega)
  · exact char_beq_false_of_toNat_ne c '\x7b'
      (by intro h; rw [show ('\x7b').toNat = 123 from rfl] at h; omega)
  · exact char_beq_false_of_toNat_ne c 'n'
      (by intro h; rw [show ('n').toNat = 110 from rfl] at h; omega)
  · exact char_beq_false_of_toNat_ne c 't'
      (by intro h; rw [show ('t').toNat = 116 from rfl] at h; omega)
  · exact char_beq_false_of_toNat_ne c 'f'
      (by intro h; rw [show ('f').toNat = 102 from rfl] at h; omega)

theorem natStr_head (n : Nat) : ∃ c cs, natStr n = c :: cs ∧ isDigitCh c = true := by
  by_cases h : n = 0
  · subst h
    exact ⟨'0', [], rfl, rfl⟩
  · obtain ⟨c, cs, hc, _, hd⟩ := natDigitsRevAux_head_pos (n + 1) n (by omega) (by omega)
    exact ⟨c, cs, hc, hd⟩

theorem dumps_head (v : JsonVal) :
    ∃ c cs, dumpsJ v = c :: cs ∧ isWsCh c = false ∧ (c == ']') = false ∧
      (c == '\x7d') = false := by
  cases v with
  | jnull => exact ⟨'n', _, rfl, rfl, rfl, rfl⟩
  | jbool b =>
      cases b with
      | true => exact ⟨'t', _, rfl, rfl, rfl, rfl⟩
      | false => exact ⟨'f', _, rfl, rfl, rfl, rfl⟩
  | jstr s => exact ⟨'"', _, rfl, rfl, rfl, rfl⟩
  | jarr xs => exact ⟨'[', _, rfl, rfl, rfl, rfl⟩
  | jobj kvs => exact ⟨'\x7b', _, rfl, rfl, rfl, rfl⟩
  | jint n =>
      rw [show dumpsJ (.jint n) = intStr n from rfl, intStr]
      by_cases hneg : n < 0
      · rw [if_pos hneg]
        exact ⟨'-', _, rfl, rfl, rfl, rfl⟩
      · rw [if_neg hneg]
        obtain ⟨c, cs, hc, hd⟩ := natStr_head n.toNat
        obtain ⟨f1, f2, f3, _⟩ := digit_head_facts c hd
        exact ⟨c, cs, hc, f1, f2, f3⟩

mutual
/-- Fuel ample for `parseVal` on the printed form of a value. -/
def needV : JsonVal → Nat
  | .jarr xs => 1 + needE xs
  | .jobj kvs => 1 + needM kvs
  | _ => 1

/-- Fuel ample for `parseElems` on printed elements. -/
def needE : List JsonVal → Nat
  | [] => 1
  | x :: xs => 1 + max (needV x) (needE xs)

/-- Fuel ample for `parseMembers` on printed members. -/
def needM : List (String × JsonVal) → Nat
  | [] => 1
  | (_, v) :: kvs => 1 + max (needV v) (needM kvs)
end

theorem needV_pos (v : JsonVal) : 1 ≤ needV v := by
  cases v with
  | jarr xs => rw [needV]; omega
  | jobj kvs => rw [needV]; omega
  | jnull => exact Nat.le_refl 1
  | jbool b => exact Nat.le_refl 1
  | jint n => exact Nat.le_refl 1
  | jstr s => exact Nat.le_refl 1

theorem parseVal_space (fuel : Nat) (l : List Char) :
    parseVal fuel (' ' :: l) = parseVal fuel l := by
  cases fuel with
  | zero => rfl
  | succ f => rfl

theorem parseElems_space (fuel : Nat) (l : List Char) :
    parseElems fuel (' ' :: l) = parseElems fuel l := by
  cases fuel with
  | zero => rfl
  | succ g => rw [parseElems, parseElems, parseVal_space]

theorem parseMembers_space (fuel : Nat) (l : List Char) :
    parseMembers fuel (' ' :: l) = parseMembers fuel l := by
  cases fuel with
  | zero => rfl
  | succ g => rw [parseMembers, parseMembers, skipWs, if_pos (by decide)]

theorem dumpsArr_cons_head (x : JsonVal) (xs : List JsonVal) :
    ∃ c cs, dumpsArr (x :: xs) = c :: cs ∧ isWsCh c = false ∧ (c == ']') = false ∧
      (c == '\x7d') = false := by
  obtain ⟨c, cs, hc, f1, f2, f3⟩ := dumps_head x
  cases xs with
  | nil => exact ⟨c, cs, hc, f1, f2, f3⟩
  | cons y ys =>
      refine ⟨c, cs ++ ',' :: ' ' :: dumpsArr (y :: ys), ?_, f1, f2, f3⟩
      have hstep : dumpsArr (x :: y :: ys) = dumpsJ x ++ ',' :: ' ' :: dumpsArr (y :: ys) := rfl
      rw [hstep, hc]
      rfl

theorem dumpsJ_len_pos (v : JsonVal) : 1 ≤ (dumpsJ v).length := by
  obtain ⟨c, cs, hc, _, _, _⟩ := dumps_head v
  rw [hc]
  simp

theorem dumpsObj_cons_eq (k : String) (v : JsonVal) (m : String × JsonVal)
    (kvs : List (String × JsonVal)) :
    dumpsObj ((k, v) :: m :: kvs)
      = (('"' :: escapeStr k.data) ++ ('"' :: ':' :: ' ' :: dumpsJ v)) ++
          (',' :: ' ' :: dumpsObj (m :: kvs)) :=
  dumpsObj.eq_3 k v (m :: kvs) (fun h => List.noConfusion h)

mutual
theorem needV_le (v : JsonVal) : needV v ≤ (dumpsJ v).length := by
  cases v with
  | jnull => decide
  | jbool b => cases b <;> decide
  | jint n => exact le_trans (Nat.le_refl 1) (dumpsJ_len_pos (.jint n))
  | jstr s => exact le_trans (Nat.le_refl 1) (dumpsJ_len_pos (.jstr s))
  | jarr xs =>
      have h1 := needE_le xs
      have h2 : needV (.jarr xs) = 1 + needE xs := rfl
      have h3 : (dumpsJ (.jarr xs)).length = (dumpsArr xs).length + 2 := by
        rw [show dumpsJ (.jarr xs) = ('[' :: dumpsArr xs) ++ [']'] from rfl]
        simp only [List.length_append, List.length_cons, List.length_nil]
      omega
  | jobj kvs =>
      have h1 := needM_le kvs
      have h2 : needV (.jobj kvs) = 1 + needM kvs := rfl
      have h3 : (dumpsJ (.jobj kvs)).length = (dumpsObj kvs).length + 2 := by
        rw [show dumpsJ (.jobj kvs) = ('\x7b' :: dumpsObj kvs) ++ ['\x7d'] from rfl]
        simp only [List.length_append, List.length_cons, List.length_nil]
      omega

theorem needE_le (xs : List JsonVal) : needE xs ≤ 1 + (dumpsArr xs).length := by
  match xs with
  | [] => decide
  | [x] =>
      have h1 := needV_le x
      have h2 := dumpsJ_len_pos x
      have h3 : needE [x] = 1 + max (needV x) 1 := rfl
      have h4 : dumpsArr [x] = dumpsJ x := rfl
      rw [h3, h4]
      omega
  | x :: y :: ys =>
      have h1 := needV_le x
      have h2 := needE_le (y :: ys)
      have h3 : needE (x :: y :: ys) = 1 + max (needV x) (needE (y :: ys)) := rfl
      have h4 : (dumpsArr (x :: y :: ys)).length
          = (dumpsJ x).length + 2 + (dumpsArr (y :: ys)).length := by
        rw [show dumpsArr (x :: y :: ys)
            = dumpsJ x ++ ',' :: ' ' :: dumpsArr (y :: ys) from rfl]
        simp only [List.length_append, List.length_cons]
        omega
      omega

theorem needM_le (kvs : List (String × JsonVal)) : needM kvs ≤ 1 + (dumpsObj kvs).length := by
  match kvs with
  | [] => decide
  | [(k, v)] =>
      have h1 := needV_le v
      have h2 : needM [(k, v)] = 1 + max (needV v) 1 := rfl
      have h3 : (dumpsObj [(k, v)]).length
          = (escapeStr k.data).length + 4 + (dumpsJ v).length := by
        rw [show dumpsObj [(k, v)]
            = ('"' :: escapeStr k.data) ++ ('"' :: ':' :: ' ' :: dumpsJ v) from rfl]
        simp only [List.length_append, List.length_cons]
        omega
      omega
  | (k, v) :: m :: kvs2 =>
      have h1 := needV_le v
      have h2 := needM_le (m :: kvs2)
      have h3 : needM ((k, v) :: m :: kvs2) = 1 + max (needV v) (needM (m :: kvs2)) := rfl
      have h4 : (dumpsObj ((k, v) :: m :: kvs2)).length
          = (escapeStr k.data).length + 6 + (dumpsJ v).length + (dumpsObj (m :: kvs2)).length := by
        rw [dumpsObj_cons_eq]
        simp only [List.length_append, List.length_cons]
        omega
      omega
end

theorem dumpsJ_jstr_append (s : String) (rest : List Char) :
    dumpsJ (.jstr s) ++ rest = '"' :: (escapeStr s.data ++ ('"' :: rest)) := by
  show (('"' :: escapeStr s.data) ++ ['"']) ++ rest = _
  rw [List.append_assoc, List.cons_append]
  rfl

theorem dumpsJ_jarr_append (xs : List JsonVal) (rest : List Char) :
    dumpsJ (.jarr xs) ++ rest = '[' :: (dumpsArr xs ++ (']' :: rest)) := by
  show (('[' :: dumpsArr xs) ++ [']']) ++ rest = _
  rw [List.append_assoc, List.cons_append]
  rfl

theorem dumpsJ_jobj_append (kvs : List (String × JsonVal)) (rest : List Char) :
    dumpsJ (.jobj kvs) ++ rest = '\x7b' :: (dumpsObj kvs ++ ('\x7d' :: rest)) := by
  show (('\x7b' :: dumpsObj kvs) ++ ['\x7d']) ++ rest = _
  rw [List.append_assoc, List.cons_append]
  rfl

theorem dumpsObj_single_append (k : String) (v : JsonVal) (rest : List Char) :
    dumpsObj [(k, v)] ++ rest
      = '"' :: (escapeStr k.data ++ ('"' :: ':' :: ' ' :: (dumpsJ v ++ rest))) := by
  show (('"' :: escapeStr k.data) ++ ('"' :: ':' :: ' ' :: dumpsJ v)) ++ rest = _
  rw [List.append_assoc, List.cons_append]
  rfl

theorem dumpsObj_cons_append (k : String) (v : JsonVal) (m : String × JsonVal)
    (kvs : List (String × JsonVal)) (rest : List Char) :
    dumpsObj ((k, v) :: m :: kvs) ++ rest
      = '"' :: (escapeStr k.data ++
          ('"' :: ':' :: ' ' :: (dumpsJ v ++ (',' :: ' ' :: (dumpsObj (m :: kvs) ++ rest))))) := by
  rw [dumpsObj_cons_eq, List.append_assoc, List.append_assoc, List.cons_append]
  rfl

theorem dumpsArr_cons2_append (x y : JsonVal) (ys : List JsonVal) (rest : List Char) :
    dumpsArr (x :: y :: ys) ++ rest
      = dumpsJ x ++ (',' :: ' ' :: (dumpsArr (y :: ys) ++ rest)) := by
  show (dumpsJ x ++ (',' :: ' ' :: dumpsArr (y :: ys))) ++ rest = _
  rw [List.append_assoc]
  rfl

theorem dumpsObj_cons_head (k : String) (v : JsonVal) (kvs : List (String × JsonVal)) :
    ∃ cs, dumpsObj ((k, v) :: kvs) = '"' :: cs := by
  cases kvs with
  | nil => exact ⟨escapeStr k.data ++ ('"' :: ':' :: ' ' :: dumpsJ v), rfl⟩
  | cons m kvs2 =>
      refine ⟨escapeStr k.data ++
        ('"' :: ':' :: ' ' :: (dumpsJ v ++ (',' :: ' ' :: dumpsObj (m :: kvs2)))), ?_⟩
      rw [dumpsObj_cons_eq, List.append_assoc, List.cons_append]
      rfl

theorem parseVal_str_step (f : Nat) (cs : List Char) :
    parseVal (f + 1) ('"' :: cs)
      = (parseStrAux cs).map (fun p => (JsonVal.jstr (String.mk p.1), p.2)) := rfl

theorem parseVal_arr_step (f : Nat) (c : Char) (cs : List Char)
    (hws : isWsCh c = false) (hrb : (c == ']') = false) :
    parseVal (f + 1) ('[' :: c :: cs)
      = (parseElems f (c :: cs)).map (fun (p : List JsonVal × List Char) => (JsonVal.jarr p.1, p.2)) := by
  show (match skipWs (c :: cs) with
        | d :: r2 =>
            if d == ']' then some (JsonVal.jarr [], r2)
            else (parseElems f (c :: cs)).map (fun (p : List JsonVal × List Char) => (JsonVal.jarr p.1, p.2))
        | [] => (parseElems f (c :: cs)).map (fun (p : List JsonVal × List Char) => (JsonVal.jarr p.1, p.2))) = _
  rw [skipWs_cons_not c cs hws]
  show (if c == ']' then some (JsonVal.jarr [], cs)
        else (parseElems f (c :: cs)).map (fun (p : List JsonVal × List Char) => (JsonVal.jarr p.1, p.2))) = _
  rw [if_neg (by simp [hrb])]

theorem parseVal_obj_step (f : Nat) (c : Char) (cs : List Char)
    (hws : isWsCh c = false) (hrb : (c == '\x7d') = false) :
    parseVal (f + 1) ('\x7b' :: c :: cs)
      = (parseMembers f (c :: cs)).map (fun (p : List (String × JsonVal) × List Char) => (JsonVal.jobj p.1, p.2)) := by
  show (match skipWs (c :: cs) with
        | d :: r2 =>
            if d == '\x7d' then some (JsonVal.jobj [], r2)
            else (parseMembers f (c :: cs)).map (fun (p : List (String × JsonVal) × List Char) => (JsonVal.jobj p.1, p.2))
        | [] => (parseMembers f (c :: cs)).map (fun (p : List (String × JsonVal) × List Char) => (JsonVal.jobj p.1, p.2))) = _
  rw [skipWs_cons_not c cs hws]
  show (if c == '\x7d' then some (JsonVal.jobj [], cs)
        else (parseMembers f (c :: cs)).map (fun (p : List (String × JsonVal) × List Char) => (JsonVal.jobj p.1, p.2))) = _
  rw [if_neg (by simp [hrb])]

theorem parseVal_num_step (f : Nat) (c : Char) (cs : List Char)
    (hws : isWsCh c = false) (h1 : (c == '"') = false) (h2 : (c == '[') = false)
    (h3 : (c == '\x7b') = false) (h4 : (c == 'n') = false) (h5 : (c == 't') = false)
    (h6 : (c == 'f') = false) :
    parseVal (f + 1) (c :: cs) = parseNum (c :: cs) := by
  rw [parseVal, skipWs_cons_not c cs hws]
  show (if c == '"' then
          (parseStrAux cs).map (fun (p : List Char × List Char) =>
            (JsonVal.jstr (String.mk p.1), p.2))
        else if c == '[' then
          (match skipWs cs with
           | d :: r2 =>
               if d == ']' then some (JsonVal.jarr [], r2)
               else (parseElems f cs).map (fun (p : List JsonVal × List Char) =>
                 (JsonVal.jarr p.1, p.2))
           | [] => (parseElems f cs).map (fun (p : List JsonVal × List Char) =>
               (JsonVal.jarr p.1, p.2)))
        else if c == '\x7b' then
          (match skipWs cs with
           | d :: r2 =>
               if d == '\x7d' then some (JsonVal.jobj [], r2)
               else (parseMembers f cs).map (fun (p : List (String × JsonVal) × List Char) =>
                 (JsonVal.jobj p.1, p.2))
           | [] => (parseMembers f cs).map (fun (p : List (String × JsonVal) × List Char) =>
               (JsonVal.jobj p.1, p.2)))
        else if c == 'n' then
          (match cs with
           | 'u' :: 'l' :: 'l' :: r => some (JsonVal.jnull, r)
           | _ => Option.none)
        else if c == 't' then
          (match cs with
           | 'r' :: 'u' :: 'e' :: r => some (JsonVal.jbool true, r)
           | _ => Option.none)
        else if c == 'f' then
          (match cs with
           | 'a' :: 'l' :: 's' :: 'e' :: r => some (JsonVal.jbool false, r)
           | _ => Option.none)
        else parseNum (c :: cs)) = parseNum (c :: cs)
  rw [if_neg (by simp [h1]), if_neg (by simp [h2]), if_neg (by simp [h3]),
    if_neg (by simp [h4]), if_neg (by simp [h5]), if_neg (by simp [h6])]

theorem parseElems_fin_comma (g : Nat) (input : List Char) (v : JsonVal) (Y : List Char)
    (h : parseVal g input = some (v, ',' :: ' ' :: Y)) :
    parseElems (g + 1) input
      = (match parseElems g (' ' :: Y) with
         | some (vs, r3) => some (v :: vs, r3)
         | Option.none => Option.none) := by
  show (match parseVal g input with
        | Option.none => Option.none
        | some (w, r) =>
            match skipWs r with
            | ',' :: r2 =>
                (match parseElems g r2 with
                 | some (vs, r3) => some (w :: vs, r3)
                 | Option.none => Option.none)
            | ']' :: r2 => some ([w], r2)
            | _ => Option.none) = _
  rw [h]
  rfl

theorem parseElems_fin_rbracket (g : Nat) (input : List Char) (v : JsonVal) (Y : List Char)
    (h : parseVal g input = some (v, ']' :: Y)) :
    parseElems (g + 1) input = some ([v], Y) := by
  show (match parseVal g input with
        | Option.none => Option.none
        | some (w, r) =>
            match skipWs r with
            | ',' :: r2 =>
                (match parseElems g r2 with
                 | some (vs, r3) => some (w :: vs, r3)
                 | Option.none => Option.none)
            | ']' :: r2 => some ([w], r2)
            | _ => Option.none) = _
  rw [h]
  rfl

theorem parseMembers_step2 (g : Nat) (r0 : List Char) (k : List Char) (X : List Char)
    (hstr : parseStrAux r0 = some (k, ':' :: ' ' :: X)) :
    parseMembers (g + 1) ('"' :: r0)
      = (match parseVal g (' ' :: X) with
         | Option.none => Option.none
         | some (v, r3) =>
             match skipWs r3 with
             | ',' :: r4 =>
                 (match parseMembers g r4 with
                  | some (kvs, r5) => some ((String.mk k, v) :: kvs, r5)
                  | Option.none => Option.none)
             | '\x7d' :: r4 => some ([(String.mk k, v)], r4)
             | _ => Option.none) := by
  show (match parseStrAux r0 with
        | Option.none => Option.none
        | some (kk, r1) =>
            match skipWs r1 with
            | ':' :: r2 =>
                (match parseVal g r2 with
                 | Option.none => Option.none
                 | some (v, r3) =>
                     match skipWs r3 with
                     | ',' :: r4 =>
                         (match parseMembers g r4 with
                          | some (kvs, r5) => some ((String.mk kk, v) :: kvs, r5)
                          | Option.none => Option.none)
                     | '\x7d' :: r4 => some ([(String.mk kk, v)], r4)
                     | _ => Option.none)
            | _ => Option.none) = _
  rw [hstr]
  rfl

theorem parseMembers_dumps_comma (g : Nat) (r0 k X : List Char) (v : JsonVal) (Y : List Char)
    (hstr : parseStrAux r0 = some (k, ':' :: ' ' :: X))
    (hv : parseVal g (' ' :: X) = some (v, ',' :: ' ' :: Y)) :
    parseMembers (g + 1) ('"' :: r0)
      = (match parseMembers g (' ' :: Y) with
         | some (kvs, r5) => some ((String.mk k, v) :: kvs, r5)
         | Option.none => Option.none) := by
  rw [parseMembers_step2 g r0 k X hstr, hv]
  rfl

theorem parseMembers_dumps_brace (g : Nat) (r0 k X : List Char) (v : JsonVal) (Y : List Char)
    (hstr : parseStrAux r0 = some (k, ':' :: ' ' :: X))
    (hv : parseVal g (' ' :: X) = some (v, '\x7d' :: Y)) :
    parseMembers (g + 1) ('"' :: r0) = some ([(String.mk k, v)], Y) := by
  rw [parseMembers_step2 g r0 k X hstr, hv]
  rfl

mutual
theorem parseVal_dumps (v : JsonVal) (fuel : Nat) (rest : List Char)
    (hfu : needV v ≤ fuel) (hgf : goodFollow rest = true) :
    parseVal fuel (dumpsJ v ++ rest) = some (v, rest) := by
  obtain ⟨f, rfl⟩ : ∃ f, fuel = f + 1 := ⟨fuel - 1, by have := needV_pos v; omega⟩
  cases v with
  | jnull => rfl
  | jbool b =>
      cases b with
      | true => rfl
      | false => rfl
  | jint n =>
      by_cases hneg : n < 0
      · have hi : intStr n = '-' :: natStr (Int.toNat (-n)) := by
          rw [intStr, if_pos hneg]
        have hx : dumpsJ (.jint n) ++ rest = '-' :: (natStr (Int.toNat (-n)) ++ rest) := by
          rw [show dumpsJ (.jint n) = intStr n from rfl, hi, List.cons_append]
        rw [hx, parseVal_num_step f '-' _ (by decide) (by decide) (by decide) (by decide)
            (by decide) (by decide) (by decide), ← List.cons_append, ← hi]
        exact parseNum_intStr n rest hgf
      · have hi : intStr n = natStr n.toNat := by
          rw [intStr, if_neg hneg]
        obtain ⟨c, cs, hc, hd⟩ := natStr_head n.toNat
        obtain ⟨w1, w2, w3, w4, w5, w6, w7, w8, w9⟩ := digit_head_facts c hd
        have hx : dumpsJ (.jint n) ++ rest = c :: (cs ++ rest) := by
          rw [show dumpsJ (.jint n) = intStr n from rfl, hi, hc, List.cons_append]
        rw [hx, parseVal_num_step f c _ w1 w4 w5 w6 w7 w8 w9, ← List.cons_append, ← hc, ← hi]
        exact parseNum_intStr n rest hgf
  | jstr s =>
      rw [dumpsJ_jstr_append, parseVal_str_step, parseStrAux_escapeStr]
      rfl
  | jarr xs =>
      cases xs with
      | nil => rfl
      | cons x xs2 =>
          have hfe : needE (x :: xs2) ≤ f := by
            have h1 : needV (.jarr (x :: xs2)) = 1 + needE (x :: xs2) := rfl
            omega
          obtain ⟨c, cs, hc, hws, hrb, _⟩ := dumpsArr_cons_head x xs2
          have hT : dumpsArr (x :: xs2) ++ (']' :: rest) = c :: (cs ++ (']' :: rest)) := by
            rw [hc, List.cons_append]
          rw [dumpsJ_jarr_append, hT, parseVal_arr_step f c _ hws hrb,
            ← List.cons_append, ← hc, parseElems_dumps x xs2 f rest hfe]
          rfl
  | jobj kvs =>
      cases kvs with
      | nil => rfl
      | cons kv kvs2 =>
          have h0 : needV (.jobj ((kv.1, kv.2) :: kvs2)) ≤ f + 1 := hfu
          have hfm : needM ((kv.1, kv.2) :: kvs2) ≤ f := by
            have h1 : needV (.jobj ((kv.1, kv.2) :: kvs2))
                = 1 + needM ((kv.1, kv.2) :: kvs2) := rfl
            omega
          obtain ⟨cs, hcs⟩ := dumpsObj_cons_head kv.1 kv.2 kvs2
          have hT : dumpsObj ((kv.1, kv.2) :: kvs2) ++ ('\x7d' :: rest)
              = '"' :: (cs ++ ('\x7d' :: rest)) := by
            rw [hcs, List.cons_append]
          rw [show kv = (kv.1, kv.2) from rfl, dumpsJ_jobj_append, hT,
            parseVal_obj_step f '"' _ (by decide) (by decide),
            ← List.cons_append, ← hcs, parseMembers_dumps kv.1 kv.2 kvs2 f rest hfm]
          rfl
termination_by sizeOf v
decreasing_by
  · subst_vars
    first
    | omega
    | (simp only [JsonVal.jarr.sizeOf_spec, JsonVal.jobj.sizeOf_spec,
        List.cons.sizeOf_spec, List.nil.sizeOf_spec, Prod.mk.sizeOf_spec]; omega)
  · subst_vars
    obtain ⟨a, b⟩ := kv
    simp
    omega

theorem parseElems_dumps (x : JsonVal) (xs : List JsonVal) (fuel : Nat) (rest : List Char)
    (hfe : needE (x :: xs) ≤ fuel) :
    parseElems fuel (dumpsArr (x :: xs) ++ (']' :: rest)) = some (x :: xs, rest) := by
  obtain ⟨g, rfl⟩ : ∃ g, fuel = g + 1 :=
    ⟨fuel - 1, by
      have h1 : needE (x :: xs) = 1 + max (needV x) (needE xs) := rfl
      omega⟩
  have hvx : needV x ≤ g := by
    have h1 : needE (x :: xs) = 1 + max (needV x) (needE xs) := rfl
    omega
  cases xs with
  | nil =>
      exact parseElems_fin_rbracket g _ x rest
        (by rw [show dumpsArr [x] = dumpsJ x from rfl]
            exact parseVal_dumps x g (']' :: rest) hvx rfl)
  | cons y ys =>
      have hre : needE (y :: ys) ≤ g := by
        have h1 : needE (x :: y :: ys) = 1 + max (needV x) (needE (y :: ys)) := rfl
        omega
      have hv : parseVal g (dumpsArr (x :: y :: ys) ++ (']' :: rest))
          = some (x, ',' :: ' ' :: (dumpsArr (y :: ys) ++ (']' :: rest))) := by
        rw [dumpsArr_cons2_append]
        exact parseVal_dumps x g _ hvx rfl
      rw [parseElems_fin_comma g _ x _ hv, parseElems_space,
        parseElems_dumps y ys g rest hre]
termination_by sizeOf x + sizeOf xs
decreasing_by all_goals (subst_vars; first
  | omega
  | (simp only [JsonVal.jarr.sizeOf_spec, JsonVal.jobj.sizeOf_spec,
      List.cons.sizeOf_spec, List.nil.sizeOf_spec, Prod.mk.sizeOf_spec]; omega))

theorem parseMembers_dumps (k : String) (w : JsonVal) (kvs : List (String × JsonVal))
    (fuel : Nat) (rest : List Char) (hfm : needM ((k, w) :: kvs) ≤ fuel) :
    parseMembers fuel (dumpsObj ((k, w) :: kvs) ++ ('\x7d' :: rest))
      = some ((k, w) :: kvs, rest) := by
  obtain ⟨g, rfl⟩ : ∃ g, fuel = g + 1 :=
    ⟨fuel - 1, by
      have h1 : needM ((k, w) :: kvs) = 1 + max (needV w) (needM kvs) := rfl
      omega⟩
  have hvw : needV w ≤ g := by
    have h1 : needM ((k, w) :: kvs) = 1 + max (needV w) (needM kvs) := rfl
    omega
  cases kvs with
  | nil =>
      rw [dumpsObj_single_append,
        parseMembers_dumps_brace g _ k.data (dumpsJ w ++ ('\x7d' :: rest)) w rest
          (parseStrAux_escapeStr k.data _)
          (by rw [parseVal_space]
              exact parseVal_dumps w g ('\x7d' :: rest) hvw rfl)]
  | cons m kvs2 =>
      have h0 : needM ((k, w) :: (m.1, m.2) :: kvs2) ≤ g + 1 := hfm
      have hrm : needM ((m.1, m.2) :: kvs2) ≤ g := by
        have h1 : needM ((k, w) :: (m.1, m.2) :: kvs2)
            = 1 + max (needV w) (needM ((m.1, m.2) :: kvs2)) := rfl
        omega
      rw [show m = (m.1, m.2) from rfl,
        dumpsObj_cons_append k w (m.1, m.2) kvs2 ('\x7d' :: rest),
        parseMembers_dumps_comma g _ k.data
          (dumpsJ w ++ (',' :: ' ' :: (dumpsObj ((m.1, m.2) :: kvs2) ++ ('\x7d' :: rest)))) w
          (dumpsObj ((m.1, m.2) :: kvs2) ++ ('\x7d' :: rest))
          (parseStrAux_escapeStr k.data _)
          (by rw [parseVal_space]
              exact parseVal_dumps w g _ hvw rfl),
        parseMembers_space, parseMembers_dumps m.1 m.2 kvs2 g rest hrm]
termination_by sizeOf w + sizeOf kvs
decreasing_by
  · subst_vars
    first
    | omega
    | (simp only [JsonVal.jarr.sizeOf_spec, JsonVal.jobj.sizeOf_spec,
        List.cons.sizeOf_spec, List.nil.sizeOf_spec, Prod.mk.sizeOf_spec]; omega)
  · subst_vars
    first
    | omega
    | (simp only [JsonVal.jarr.sizeOf_spec, JsonVal.jobj.sizeOf_spec,
        List.cons.sizeOf_spec, List.nil.sizeOf_spec, Prod.mk.sizeOf_spec]; omega)
  · subst_vars
    obtain ⟨a, b⟩ := m
    simp
    omega
end

/-- `json.loads` inverts `json.dumps` on every modelled JSON value. -/
theorem json_loads_dumps (v : JsonVal) : json_loads (jsonDumps v) = Except.ok v := by
  have h1 : needV v ≤ (dumpsJ v).length + 1 := by
    have := needV_le v
    omega
  have h2 : parseVal ((dumpsJ v).length + 1) (dumpsJ v) = some (v, []) := by
    have h3 := parseVal_dumps v ((dumpsJ v).length + 1) [] h1 rfl
    rwa [List.append_nil] at h3
  rw [json_loads, show (jsonDumps v).data = dumpsJ v from rfl, h2]
  rfl

/-- Claim C9: for the structured-text (JSON) descriptor, recomposing the
canonical textual encoding produced by the serialization-to-text step
(`json.dumps` with default separators) yields the original value again:
`recompose(serialize-to-text(v)) == v` for every structurally valid
(modelled) JSON value `v`. -/
theorem c9_json_round_trip (v : JsonVal) :
    JsonField.recompose (jsonDumps v) = Except.ok v := by
  rw [JsonField.recompose]
  exact json_loads_dumps v
